import Mathlib

/-!
# vtkHierarchicalPolyDataMapper: a shallow embedding

Source: `Rendering/vtkHierarchicalPolyDataMapper.cxx` (revision 1.2).

The mapper keeps a pool of `vtkPolyDataMapper` delegates (`Internal->Mappers`) and a cached
union of bounds (`Bounds`), each behind its own `vtkTimeStamp`.  The member functions are
embedded as pure functions on an explicit `State`.  Everything the member functions ask of
their collaborators (the executive, the global time stamp counter) is a field of `World`;
every call made on a collaborator is appended to `State.trace`.

Scalars are exact rationals.
-/

namespace vtkHierarchicalPolyDataMapper

/-! ## Data model -/

/-- The array `double[6]`: `(xmin, xmax, ymin, ymax, zmin, zmax)`, indices `0..5`. -/
structure Bounds where
  xmin : ℚ
  xmax : ℚ
  ymin : ℚ
  ymax : ℚ
  zmin : ℚ
  zmax : ℚ
deriving DecidableEq

/-- A `vtkPolyData` object: its identity and what `GetBounds(double[6])` reports. -/
structure vtkPolyData where
  id : Nat
  bounds : Bounds
deriving DecidableEq

/-- A `vtkDataObject*` handed out by the executive or by the composite iterator: either a
`vtkPolyData` or something `vtkPolyData::SafeDownCast` rejects. -/
inductive vtkDataObject where
  | polyData (pd : vtkPolyData)
  | other (id : Nat)
deriving DecidableEq

/-- The cast `vtkPolyData::SafeDownCast`: the polydata, or null. -/
def SafeDownCast : vtkDataObject → Option vtkPolyData
  | vtkDataObject.polyData pd => some pd
  | vtkDataObject.other _ => none

/-- A delegate `vtkPolyDataMapper*`: the identity it got from `New()` and the polydata given
to `SetInput`. -/
structure vtkPolyDataMapper where
  id : Nat
  Input : vtkPolyData
deriving DecidableEq

/-- The two member functions whose entry is recorded in the trace. -/
inductive Fn where
  | BuildPolyDataMapper
  | ComputeBounds
deriving DecidableEq

/-- Calls made by the mapper, in program order. -/
inductive Event where
  | enter (f : Fn)
  | Delete (mapper : Nat)
  | New (mapper : Nat)
  | SetInput (mapper : Nat) (pd : vtkPolyData)
  | NewIterator
  | Error (msg : String)
  | Update
  | SetClippingPlanes (mapper : Nat) (planes : Nat)
  | Render (mapper : Nat) (ren : Nat) (actor : Nat)
deriving DecidableEq

/-- What the mapper reads from its collaborators.
* `GetInput`: whether `this->GetInput()` is non-null;
* `CompositeDataSet`: the result of `vtkHierarchicalDataSet::SafeDownCast(inInfo->Get(
  COMPOSITE_DATA_SET()))`, as the sequence its iterator produces, or `none` for null;
* `InputData`: `GetExecutive()->GetInputData(0, 0)`;
* `PipelineMTime`: `executive->GetPipelineMTime()`;
* `clock`: the global counter behind `vtkTimeStamp`. -/
structure World where
  GetInput : Bool
  CompositeDataSet : Option (List vtkDataObject)
  InputData : Option vtkDataObject
  PipelineMTime : Nat
  clock : Nat
deriving DecidableEq

/-- The mapper object together with its environment.  `created` counts the delegates
allocated so far and is the identity given to the next one. -/
structure State where
  Mappers : List vtkPolyDataMapper
  InternalMappersBuildTime : Nat
  Bounds : Bounds
  BoundsMTime : Nat
  ClippingPlanes : Nat
  world : World
  created : Nat
  trace : List Event
deriving DecidableEq

/-! ## Collaborators that are not part of the source file -/

/-- Modelled from the spec: `vtkMath::UninitializeBounds` is not in the source tree; it sets
the array to `(1,-1,1,-1,1,-1)`. -/
def UninitializeBounds : Bounds := ⟨1, -1, 1, -1, 1, -1⟩

/-- Modelled from the spec: `vtkMath::AreBoundsInitialized` is not in the source tree; it is
false exactly when `bounds[1] < bounds[0]`. -/
def AreBoundsInitialized (b : Bounds) : Bool := !decide (b.xmax < b.xmin)

/-- Modelled from the spec: `vtkTimeStamp::Modified` is not in the source tree; it advances
the global counter and returns the new value, which is greater than every time stamp issued
before. -/
def Modified (w : World) : Nat × World := (w.clock + 1, { w with clock := w.clock + 1 })

/-! ## BuildPolyDataMapper (lines 77-135) -/

/-- Lines 100-102 and 115-117: `New()`, `SetInput(pd)`, `push_back`. -/
def pushNewMapper (pd : vtkPolyData) (s : State) : State :=
  { s with
    Mappers := s.Mappers ++ [⟨s.created, pd⟩]
    created := s.created + 1
    trace := s.trace ++ [Event.New s.created, Event.SetInput s.created pd] }

/-- Line 125: `vtkErrorMacro`. -/
def vtkErrorMacro (msg : String) (s : State) : State :=
  { s with trace := s.trace ++ [Event.Error msg] }

/-- Lines 110-130: the `while (!iter->IsDoneWithTraversal())` loop over the remaining items
of the iterator; `warnOnce` is the local flag. -/
def buildLoop : List vtkDataObject → Bool → State → State
  | [], _, s => s
  | obj :: rest, warnOnce, s =>
    match SafeDownCast obj with
    | some pd => buildLoop rest warnOnce (pushNewMapper pd s)
    | none =>
      if !warnOnce then
        buildLoop rest true
          (vtkErrorMacro "All data in the hierachical dataset must be polydata." s)
      else
        buildLoop rest warnOnce s

/-- Lines 82-86: `Delete()` every delegate, then `clear()`. -/
def deleteMappers (s : State) : State :=
  { s with
    Mappers := []
    trace := s.trace ++ s.Mappers.map (fun m => Event.Delete m.id) }

/-- The member function `BuildPolyDataMapper`. -/
def BuildPolyDataMapper (s : State) : State :=
  let s0 := { s with trace := s.trace ++ [Event.enter Fn.BuildPolyDataMapper] }
  let s1 := deleteMappers s0
  let s2 :=
    match s1.world.CompositeDataSet with
    | none =>
      match s1.world.InputData.bind SafeDownCast with
      | some pd => pushNewMapper pd s1
      | none => s1
    | some items =>
      buildLoop items false { s1 with trace := s1.trace ++ [Event.NewIterator] }
  let t := Modified s2.world
  { s2 with InternalMappersBuildTime := t.1, world := t.2 }

/-! ## Render (lines 137-154) -/

/-- Lines 149-153: the loop over the pool. -/
def renderLoop (planes ren a : Nat) : List vtkPolyDataMapper → List Event
  | [] => []
  | m :: ms =>
    Event.SetClippingPlanes m.id planes :: Event.Render m.id ren a :: renderLoop planes ren a ms

/-- The member function `Render`. -/
def Render (ren a : Nat) (s : State) : State :=
  let s1 :=
    if s.world.PipelineMTime > s.InternalMappersBuildTime then BuildPolyDataMapper s else s
  { s1 with trace := s1.trace ++ renderLoop s1.ClippingPlanes ren a s1.Mappers }

/-! ## ComputeBounds (lines 161-222) -/

/-- Lines 201-209: the `for (i = 0; i < 3; i++)` loop, one axis per iteration. -/
def expandBounds (cur b : Bounds) : Bounds :=
  { xmin := if b.xmin < cur.xmin then b.xmin else cur.xmin
    xmax := if b.xmax > cur.xmax then b.xmax else cur.xmax
    ymin := if b.ymin < cur.ymin then b.ymin else cur.ymin
    ymax := if b.ymax > cur.ymax then b.ymax else cur.ymax
    zmin := if b.zmin < cur.zmin then b.zmin else cur.zmin
    zmax := if b.zmax > cur.zmax then b.zmax else cur.zmax }

/-- Lines 192-217: the body of the traversal loop, acting on `this->Bounds`. -/
def boundsStep (cur : Bounds) (obj : vtkDataObject) : Bounds :=
  match SafeDownCast obj with
  | some pd => if AreBoundsInitialized cur then expandBounds cur pd.bounds else pd.bounds
  | none => cur

/-- Lines 190-219: the `while (!iter->IsDoneWithTraversal())` loop. -/
def boundsLoop : List vtkDataObject → Bounds → Bounds
  | [], cur => cur
  | obj :: rest, cur => boundsLoop rest (boundsStep cur obj)

/-- The member function `ComputeBounds`. -/
def ComputeBounds (s : State) : State :=
  let s1 := { s with
    Bounds := UninitializeBounds
    trace := s.trace ++ [Event.enter Fn.ComputeBounds] }
  match s1.world.CompositeDataSet with
  | none =>
    match s1.world.InputData.bind SafeDownCast with
    | some pd => { s1 with Bounds := pd.bounds }
    | none => s1
  | some items =>
    let s2 := { s1 with
      Bounds := boundsLoop items s1.Bounds
      trace := s1.trace ++ [Event.NewIterator] }
    let t := Modified s2.world
    { s2 with BoundsMTime := t.1, world := t.2 }

/-! ## GetBounds (lines 224-246) -/

/-- Line 226: the function-local `static double bounds[]`. -/
def staticBounds : Bounds := ⟨-1, 1, -1, 1, -1, 1⟩

/-- The member function `GetBounds`.  `update` is what `this->Update()` does to the
environment (pipeline execution is outside the source file). -/
def GetBounds (update : World → World) (s : State) : Bounds × State :=
  if !s.world.GetInput then
    (staticBounds, s)
  else
    let s1 := { s with world := update s.world, trace := s.trace ++ [Event.Update] }
    let s2 := if s1.world.PipelineMTime > s1.BoundsMTime then ComputeBounds s1 else s1
    (s2.Bounds, s2)

/-! ## Constructor and destructor (lines 40-58) -/

/-- Lines 40-43: the constructor allocates an empty pool.  The two `vtkTimeStamp` members
start at 0; `Bounds` and `ClippingPlanes` are set by the superclass constructors, which are
not in the source file, and are parameters.  No delegate exists yet. -/
def Constructor (bounds : Bounds) (planes : Nat) (w : World) : State :=
  { Mappers := []
    InternalMappersBuildTime := 0
    Bounds := bounds
    BoundsMTime := 0
    ClippingPlanes := planes
    world := w
    created := 0
    trace := [] }

/-- Lines 45-58: the destructor calls `Delete()` on every delegate of the pool, then
`clear()`.  The two `cout` lines only print and are not recorded. -/
def Destructor (s : State) : State :=
  { s with
    Mappers := []
    trace := s.trace ++ s.Mappers.map (fun m => Event.Delete m.id) }

/-- What can happen to a mapper between construction and destruction: a `Render` call, a
`GetBounds` call (with what its `Update()` does to the environment), or a change of the
pipeline made from outside between two calls. -/
inductive Op where
  | Render (ren a : Nat)
  | GetBounds (update : World → World)
  | Pipeline (change : World → World)

/-- One operation. -/
def step : Op → State → State
  | Op.Render ren a, s => Render ren a s
  | Op.GetBounds update, s => (GetBounds update s).2
  | Op.Pipeline change, s => { s with world := change s.world }

/-- A finite sequence of operations, first to last. -/
def run : List Op → State → State
  | [], s => s
  | op :: rest, s => run rest (step op s)

/-! ## Observations on traces -/

/-- Number of diagnostics (`vtkErrorMacro`) in a trace. -/
def errorCount (tr : List Event) : Nat :=
  tr.countP (fun e => match e with | Event.Error _ => true | _ => false)

/-- Number of recorded entries into the member function `f`. -/
def calls (f : Fn) (tr : List Event) : Nat :=
  tr.countP (fun e => decide (e = Event.enter f))

/-- Number of composite iterators obtained (`input->NewIterator()`). -/
def traversals (tr : List Event) : Nat :=
  tr.countP (fun e => decide (e = Event.NewIterator))

/-- Number of `Delete()` calls recorded for the delegate `i`: its release count. -/
def releaseCount (i : Nat) (tr : List Event) : Nat :=
  tr.countP (fun e => decide (e = Event.Delete i))

/-- Number of `Delete()` calls recorded, over all delegates. -/
def releases (tr : List Event) : Nat :=
  tr.countP (fun e => match e with | Event.Delete _ => true | _ => false)

/-- Number of `vtkPolyDataMapper::New()` calls recorded. -/
def creations (tr : List Event) : Nat :=
  tr.countP (fun e => match e with | Event.New _ => true | _ => false)

/-- The calls `SetClippingPlanes` and `Render` made on delegates, in order. -/
def delegateCalls (tr : List Event) : List Event :=
  tr.filter (fun e => match e with
    | Event.SetClippingPlanes _ _ => true
    | Event.Render _ _ _ => true
    | _ => false)

/-- Ownership invariant of the pool: the delegates in the pool are distinct, were created
before and have never been released; every other delegate created so far has been released
exactly once; identities not yet handed out have no release; and the number of delegates
created is the number of `New()` calls and also the number of releases plus the pool
size. -/
def PoolInv (s : State) : Prop :=
  (s.Mappers.map (fun m => m.id)).Nodup ∧
    (∀ m ∈ s.Mappers, m.id < s.created ∧ releaseCount m.id s.trace = 0) ∧
    (∀ i, i < s.created → i ∉ s.Mappers.map (fun m => m.id) → releaseCount i s.trace = 1) ∧
    (∀ i, s.created ≤ i → releaseCount i s.trace = 0) ∧
    s.created = releases s.trace + s.Mappers.length ∧
    creations s.trace = s.created

/-! ## Vocabulary for the bounds properties -/

/-- A box is valid when `min ≤ max` on each of the three axes. -/
def Bounds.Valid (b : Bounds) : Prop :=
  b.xmin ≤ b.xmax ∧ b.ymin ≤ b.ymax ∧ b.zmin ≤ b.zmax

instance (b : Bounds) : Decidable b.Valid := by
  unfold Bounds.Valid; infer_instance

/-- The value `v` is the minimum of `f` over the polydata of `L`. -/
def IsMinOf (f : Bounds → ℚ) (L : List vtkPolyData) (v : ℚ) : Prop :=
  (∃ pd ∈ L, v = f pd.bounds) ∧ ∀ pd ∈ L, v ≤ f pd.bounds

/-- The value `v` is the maximum of `f` over the polydata of `L`. -/
def IsMaxOf (f : Bounds → ℚ) (L : List vtkPolyData) (v : ℚ) : Prop :=
  (∃ pd ∈ L, v = f pd.bounds) ∧ ∀ pd ∈ L, f pd.bounds ≤ v

/-- The box `outer` contains the box `inner` on each axis. -/
def Bounds.Contains (outer inner : Bounds) : Prop :=
  outer.xmin ≤ inner.xmin ∧ inner.xmax ≤ outer.xmax ∧
    outer.ymin ≤ inner.ymin ∧ inner.ymax ≤ outer.ymax ∧
    outer.zmin ≤ inner.zmin ∧ inner.zmax ≤ outer.zmax

/-! ## Example inputs -/

/-- The unit box `[(0,1),(0,1),(0,1)]`. -/
def exBoxA : Bounds := ⟨0, 1, 0, 1, 0, 1⟩

/-- The box `[(-1,1/2),(2,3),(0,1/5)]`. -/
def exBoxB : Bounds := ⟨-1, 1 / 2, 2, 3, 0, 1 / 5⟩

/-- A box away from the origin, `[(5,6),(5,6),(5,6)]`. -/
def exBoxC : Bounds := ⟨5, 6, 5, 6, 5, 6⟩

/-- Five items; the second and the fourth are not polydata. -/
def exFiveItems : List vtkDataObject :=
  [vtkDataObject.polyData ⟨10, exBoxA⟩, vtkDataObject.other 11,
   vtkDataObject.polyData ⟨12, exBoxC⟩, vtkDataObject.other 13,
   vtkDataObject.polyData ⟨14, exBoxA⟩]

/-- A state over a hierarchical source: one delegate from an earlier build is in the pool,
both caches are older than the pipeline, and the pipeline is not newer than the clock. -/
def exHier (items : List vtkDataObject) : State :=
  { Mappers := [⟨0, ⟨9, exBoxA⟩⟩]
    InternalMappersBuildTime := 2
    Bounds := staticBounds
    BoundsMTime := 2
    ClippingPlanes := 40
    world :=
      { GetInput := true, CompositeDataSet := some items, InputData := none,
        PipelineMTime := 5, clock := 7 }
    created := 1
    trace := [] }

/-- A state over a flat (non-hierarchical) input. -/
def exFlat (input : Option vtkDataObject) : State :=
  { Mappers := [⟨0, ⟨9, exBoxA⟩⟩]
    InternalMappersBuildTime := 2
    Bounds := staticBounds
    BoundsMTime := 2
    ClippingPlanes := 40
    world :=
      { GetInput := true, CompositeDataSet := none, InputData := input,
        PipelineMTime := 5, clock := 7 }
    created := 1
    trace := [] }

/-- A state with no input attached. -/
def exNoInput : State :=
  { Mappers := [⟨0, ⟨9, exBoxA⟩⟩]
    InternalMappersBuildTime := 2
    Bounds := exBoxC
    BoundsMTime := 2
    ClippingPlanes := 40
    world :=
      { GetInput := false, CompositeDataSet := none, InputData := none,
        PipelineMTime := 5, clock := 7 }
    created := 1
    trace := [] }

/-- A life of the mapper over the five example items: a render, a bounds query, a change
of the pipeline that makes both caches stale, and another render. -/
def exOps : List Op :=
  [Op.Render 1 2, Op.GetBounds id, Op.Pipeline (fun w => { w with PipelineMTime := 20 }),
   Op.Render 1 2]

/-- The mapper as constructed, attached to the five example items. -/
def exNew : State := Constructor exBoxA 40 (exHier exFiveItems).world

/-! ## The traversal loop of BuildPolyDataMapper -/

theorem buildLoop_Mappers (items : List vtkDataObject) (w : Bool) (s : State) :
    (buildLoop items w s).Mappers =
      s.Mappers ++ (List.enumFrom s.created (items.filterMap SafeDownCast)).map
        (fun p => (⟨p.1, p.2⟩ : vtkPolyDataMapper)) := by
  induction items generalizing w s with
  | nil => simp [buildLoop]
  | cons obj rest ih =>
    cases obj with
    | polyData pd =>
      simp [buildLoop, SafeDownCast, ih, pushNewMapper, List.enumFrom]
    | other i =>
      cases w <;> simp [buildLoop, SafeDownCast, ih, vtkErrorMacro]

theorem buildLoop_created (items : List vtkDataObject) (w : Bool) (s : State) :
    (buildLoop items w s).created = s.created + (items.filterMap SafeDownCast).length := by
  induction items generalizing w s with
  | nil => simp [buildLoop]
  | cons obj rest ih =>
    cases obj with
    | polyData pd =>
      simp [buildLoop, SafeDownCast, ih, pushNewMapper]; omega
    | other i =>
      cases w <;> simp [buildLoop, SafeDownCast, ih, vtkErrorMacro]

theorem buildLoop_frame (items : List vtkDataObject) (w : Bool) (s : State) :
    (buildLoop items w s).world = s.world ∧
    (buildLoop items w s).InternalMappersBuildTime = s.InternalMappersBuildTime ∧
    (buildLoop items w s).Bounds = s.Bounds ∧
    (buildLoop items w s).BoundsMTime = s.BoundsMTime ∧
    (buildLoop items w s).ClippingPlanes = s.ClippingPlanes := by
  induction items generalizing w s with
  | nil => simp [buildLoop]
  | cons obj rest ih =>
    cases obj with
    | polyData pd =>
      simp [buildLoop, SafeDownCast, ih, pushNewMapper]
    | other i =>
      cases w <;> simp [buildLoop, SafeDownCast, ih, vtkErrorMacro]

theorem buildLoop_errorCount (items : List vtkDataObject) (w : Bool) (s : State) :
    errorCount (buildLoop items w s).trace =
      errorCount s.trace +
        (if !w && items.any (fun o => (SafeDownCast o).isNone) then 1 else 0) := by
  induction items generalizing w s with
  | nil => simp [buildLoop]
  | cons obj rest ih =>
    cases obj with
    | polyData pd =>
      simp only [buildLoop, SafeDownCast]
      rw [ih]
      simp [pushNewMapper, errorCount, SafeDownCast]
    | other i =>
      cases w
      · simp only [buildLoop, SafeDownCast]
        rw [if_pos (by rfl), ih]
        simp [vtkErrorMacro, errorCount, SafeDownCast]
      · simp only [buildLoop, SafeDownCast]
        rw [if_neg (by simp), ih]
        simp

theorem buildLoop_countP (p : Event → Bool) (hNew : ∀ m, p (Event.New m) = false)
    (hSet : ∀ m pd, p (Event.SetInput m pd) = false) (hErr : ∀ msg, p (Event.Error msg) = false)
    (items : List vtkDataObject) (w : Bool) (s : State) :
    (buildLoop items w s).trace.countP p = s.trace.countP p := by
  induction items generalizing w s with
  | nil => simp [buildLoop]
  | cons obj rest ih =>
    cases obj with
    | polyData pd =>
      simp [buildLoop, SafeDownCast, ih, pushNewMapper, hNew, hSet]
    | other i =>
      cases w <;> simp [buildLoop, SafeDownCast, ih, vtkErrorMacro, hErr]


/-! ## BuildPolyDataMapper on a hierarchical source -/

theorem BuildPolyDataMapper_hier_Mappers (s : State) (items : List vtkDataObject)
    (h : s.world.CompositeDataSet = some items) :
    (BuildPolyDataMapper s).Mappers =
      (List.enumFrom s.created (items.filterMap SafeDownCast)).map
        (fun p => (⟨p.1, p.2⟩ : vtkPolyDataMapper)) := by
  simp [BuildPolyDataMapper, deleteMappers, h, buildLoop_Mappers]

theorem BuildPolyDataMapper_hier_errorCount (s : State) (items : List vtkDataObject)
    (h : s.world.CompositeDataSet = some items) :
    errorCount (BuildPolyDataMapper s).trace =
      errorCount s.trace + (if items.any (fun o => (SafeDownCast o).isNone) then 1 else 0) := by
  simp only [BuildPolyDataMapper, deleteMappers, h, buildLoop_errorCount]
  simp [errorCount, List.countP_eq_zero]

/-- C1. On a hierarchical source, `BuildPolyDataMapper` leaves the pool equal to one new
delegate per polydata item, bound to that item, in traversal order: the delegates created
are numbered `created, created + 1, ...` along the accepted items.  The prior pool content
is arbitrary (any delegates allocated before the call); none of them is in the pool
afterwards. -/
theorem C1_rebuild_pool_is_map_over_accepted (s : State) (items : List vtkDataObject)
    (h : s.world.CompositeDataSet = some items)
    (hprior : ∀ m ∈ s.Mappers, m.id < s.created) :
    (BuildPolyDataMapper s).Mappers =
        (List.enumFrom s.created (items.filterMap SafeDownCast)).map
          (fun p => (⟨p.1, p.2⟩ : vtkPolyDataMapper)) ∧
      (BuildPolyDataMapper s).Mappers.map (fun m => m.Input) = items.filterMap SafeDownCast ∧
      (BuildPolyDataMapper s).Mappers.length = (items.filterMap SafeDownCast).length ∧
      ∀ m ∈ s.Mappers, m ∉ (BuildPolyDataMapper s).Mappers := by
  have hM := BuildPolyDataMapper_hier_Mappers s items h
  refine ⟨hM, ?_, ?_, ?_⟩
  · rw [hM, List.map_map]
    have : ((fun m : vtkPolyDataMapper => m.Input) ∘
        fun p : Nat × vtkPolyData => (⟨p.1, p.2⟩ : vtkPolyDataMapper)) = Prod.snd := by
      funext p; rfl
    rw [this, List.enumFrom_map_snd]
  · rw [hM]; simp
  · intro m hm hin
    rw [hM, List.mem_map] at hin
    obtain ⟨p, hp, rfl⟩ := hin
    have h1 := List.le_fst_of_mem_enumFrom hp
    have h2 := hprior _ hm
    simp at h2
    omega

theorem C1_rebuild_pool_is_map_over_accepted_witness :
    (exHier exFiveItems).world.CompositeDataSet = some exFiveItems ∧
      (∀ m ∈ (exHier exFiveItems).Mappers, m.id < (exHier exFiveItems).created) ∧
      (BuildPolyDataMapper (exHier exFiveItems)).Mappers =
        [⟨1, ⟨10, exBoxA⟩⟩, ⟨2, ⟨12, exBoxC⟩⟩, ⟨3, ⟨14, exBoxA⟩⟩] ∧
      ∀ m ∈ (exHier exFiveItems).Mappers,
        m ∉ (BuildPolyDataMapper (exHier exFiveItems)).Mappers :=
  ⟨rfl, by decide,
    (C1_rebuild_pool_is_map_over_accepted (exHier exFiveItems) exFiveItems rfl (by decide)).1,
    (C1_rebuild_pool_is_map_over_accepted (exHier exFiveItems) exFiveItems rfl
      (by decide)).2.2.2⟩

/-- C2. On a hierarchical source one call of `BuildPolyDataMapper` emits exactly one
diagnostic when the traversal has at least one non-polydata item and none otherwise,
however many such items there are; the pool still ends holding the accepted items.  In
particular five items of which the second and the fourth are not polydata give a pool of
three delegates and one diagnostic. -/
theorem C2_one_diagnostic_per_rebuild (s : State) (items : List vtkDataObject)
    (h : s.world.CompositeDataSet = some items) :
    errorCount (BuildPolyDataMapper s).trace =
        errorCount s.trace +
          (if items.any (fun o => (SafeDownCast o).isNone) then 1 else 0) ∧
      (BuildPolyDataMapper s).Mappers.map (fun m => m.Input) = items.filterMap SafeDownCast ∧
      ∀ (a c e : vtkPolyData) (b d : Nat),
        items = [vtkDataObject.polyData a, vtkDataObject.other b, vtkDataObject.polyData c,
          vtkDataObject.other d, vtkDataObject.polyData e] →
        (BuildPolyDataMapper s).Mappers.length = 3 ∧
          errorCount (BuildPolyDataMapper s).trace = errorCount s.trace + 1 := by
  have hM := BuildPolyDataMapper_hier_Mappers s items h
  have hE := BuildPolyDataMapper_hier_errorCount s items h
  refine ⟨hE, ?_, ?_⟩
  · rw [hM, List.map_map]
    have : ((fun m : vtkPolyDataMapper => m.Input) ∘
        fun p : Nat × vtkPolyData => (⟨p.1, p.2⟩ : vtkPolyDataMapper)) = Prod.snd := by
      funext p; rfl
    rw [this, List.enumFrom_map_snd]
  · intro a c e b d hitems
    subst hitems
    refine ⟨?_, ?_⟩
    · rw [hM]; simp [SafeDownCast]
    · rw [hE]; simp [SafeDownCast]

theorem C2_one_diagnostic_per_rebuild_witness :
    (exHier exFiveItems).world.CompositeDataSet = some exFiveItems ∧
      (BuildPolyDataMapper (exHier exFiveItems)).Mappers.length = 3 ∧
      errorCount (BuildPolyDataMapper (exHier exFiveItems)).trace =
        errorCount (exHier exFiveItems).trace + 1 :=
  ⟨rfl, (C2_one_diagnostic_per_rebuild (exHier exFiveItems) exFiveItems rfl).2.2
    ⟨10, exBoxA⟩ ⟨12, exBoxC⟩ ⟨14, exBoxA⟩ 11 13 rfl⟩

/-! ## The traversal loop of ComputeBounds -/

theorem expandBounds_eq (cur b : Bounds) :
    expandBounds cur b =
      ⟨min cur.xmin b.xmin, max cur.xmax b.xmax, min cur.ymin b.ymin, max cur.ymax b.ymax,
        min cur.zmin b.zmin, max cur.zmax b.zmax⟩ := by
  simp only [expandBounds, gt_iff_lt, Bounds.mk.injEq]
  refine ⟨?_, ?_, ?_, ?_, ?_, ?_⟩ <;> split_ifs with h <;>
    first
      | exact (min_eq_right (le_of_lt h)).symm
      | exact (min_eq_left (not_lt.mp h)).symm
      | exact (max_eq_right (le_of_lt h)).symm
      | exact (max_eq_left (not_lt.mp h)).symm

theorem AreBoundsInitialized_iff (b : Bounds) :
    AreBoundsInitialized b = true ↔ b.xmin ≤ b.xmax := by
  simp [AreBoundsInitialized]

theorem AreBoundsInitialized_expandBounds (cur b : Bounds)
    (h : AreBoundsInitialized cur = true) : AreBoundsInitialized (expandBounds cur b) = true := by
  rw [AreBoundsInitialized_iff] at h ⊢
  rw [expandBounds_eq]
  exact le_trans (min_le_left _ _) (le_trans h (le_max_left _ _))

/-- The loop only looks at the polydata items. -/
theorem boundsLoop_eq_foldl (items : List vtkDataObject) (cur : Bounds) :
    boundsLoop items cur =
      (items.filterMap SafeDownCast).foldl
        (fun c pd => if AreBoundsInitialized c then expandBounds c pd.bounds else pd.bounds)
        cur := by
  induction items generalizing cur with
  | nil => rfl
  | cons obj rest ih =>
    cases obj with
    | polyData pd => simp [boundsLoop, boundsStep, SafeDownCast, ih]
    | other i => simp [boundsLoop, boundsStep, SafeDownCast, ih]

/-- Once the running box is initialized, every further polydata item expands it. -/
theorem foldl_of_initialized (L : List vtkPolyData) (cur : Bounds)
    (h : AreBoundsInitialized cur = true) :
    L.foldl (fun c pd => if AreBoundsInitialized c then expandBounds c pd.bounds else pd.bounds)
        cur =
      L.foldl (fun c pd => expandBounds c pd.bounds) cur ∧
    AreBoundsInitialized (L.foldl (fun c pd => expandBounds c pd.bounds) cur) = true := by
  induction L generalizing cur with
  | nil => exact ⟨rfl, h⟩
  | cons pd rest ih =>
    simp only [List.foldl_cons, h, if_true]
    exact ih _ (AreBoundsInitialized_expandBounds cur pd.bounds h)

theorem foldl_expandBounds_eq (L : List vtkPolyData) (cur : Bounds) :
    L.foldl (fun c pd => expandBounds c pd.bounds) cur =
      ⟨(L.map (fun pd => pd.bounds.xmin)).foldl min cur.xmin,
        (L.map (fun pd => pd.bounds.xmax)).foldl max cur.xmax,
        (L.map (fun pd => pd.bounds.ymin)).foldl min cur.ymin,
        (L.map (fun pd => pd.bounds.ymax)).foldl max cur.ymax,
        (L.map (fun pd => pd.bounds.zmin)).foldl min cur.zmin,
        (L.map (fun pd => pd.bounds.zmax)).foldl max cur.zmax⟩ := by
  induction L generalizing cur with
  | nil => rfl
  | cons pd rest ih =>
    simp only [List.foldl_cons, List.map_cons]
    rw [ih, expandBounds_eq]

theorem foldl_min_le (l : List ℚ) (a : ℚ) :
    l.foldl min a ≤ a ∧ (∀ x ∈ l, l.foldl min a ≤ x) ∧ (l.foldl min a = a ∨ l.foldl min a ∈ l) := by
  induction l generalizing a with
  | nil => simp
  | cons y rest ih =>
    obtain ⟨h1, h2, h3⟩ := ih (min a y)
    simp only [List.foldl_cons, List.mem_cons, forall_eq_or_imp]
    refine ⟨le_trans h1 (min_le_left _ _), ⟨le_trans h1 (min_le_right _ _), h2⟩, ?_⟩
    rcases h3 with h3 | h3
    · rcases min_choice a y with hc | hc
      · left; rw [h3, hc]
      · right; left; rw [h3, hc]
    · right; right; exact h3

theorem le_foldl_max (l : List ℚ) (a : ℚ) :
    a ≤ l.foldl max a ∧ (∀ x ∈ l, x ≤ l.foldl max a) ∧ (l.foldl max a = a ∨ l.foldl max a ∈ l) := by
  induction l generalizing a with
  | nil => simp
  | cons y rest ih =>
    obtain ⟨h1, h2, h3⟩ := ih (max a y)
    simp only [List.foldl_cons, List.mem_cons, forall_eq_or_imp]
    refine ⟨le_trans (le_max_left _ _) h1, ⟨le_trans (le_max_right _ _) h1, h2⟩, ?_⟩
    rcases h3 with h3 | h3
    · rcases max_choice a y with hc | hc
      · left; rw [h3, hc]
      · right; left; rw [h3, hc]
    · right; right; exact h3

theorem isMinOf_foldl (f : Bounds → ℚ) (pd : vtkPolyData) (L : List vtkPolyData) :
    IsMinOf f (pd :: L) ((L.map (fun q => f q.bounds)).foldl min (f pd.bounds)) := by
  obtain ⟨h1, h2, h3⟩ := foldl_min_le (L.map (fun q => f q.bounds)) (f pd.bounds)
  refine ⟨?_, ?_⟩
  · rcases h3 with h3 | h3
    · exact ⟨pd, List.mem_cons_self _ _, h3⟩
    · rw [List.mem_map] at h3
      obtain ⟨q, hq, hq2⟩ := h3
      exact ⟨q, List.mem_cons_of_mem _ hq, hq2.symm⟩
  · intro q hq
    rcases List.mem_cons.mp hq with rfl | hq
    · exact h1
    · exact h2 _ (List.mem_map_of_mem _ hq)

theorem isMaxOf_foldl (f : Bounds → ℚ) (pd : vtkPolyData) (L : List vtkPolyData) :
    IsMaxOf f (pd :: L) ((L.map (fun q => f q.bounds)).foldl max (f pd.bounds)) := by
  obtain ⟨h1, h2, h3⟩ := le_foldl_max (L.map (fun q => f q.bounds)) (f pd.bounds)
  refine ⟨?_, ?_⟩
  · rcases h3 with h3 | h3
    · exact ⟨pd, List.mem_cons_self _ _, h3⟩
    · rw [List.mem_map] at h3
      obtain ⟨q, hq, hq2⟩ := h3
      exact ⟨q, List.mem_cons_of_mem _ hq, hq2.symm⟩
  · intro q hq
    rcases List.mem_cons.mp hq with rfl | hq
    · exact h1
    · exact h2 _ (List.mem_map_of_mem _ hq)

theorem ComputeBounds_hier_Bounds (s : State) (items : List vtkDataObject)
    (h : s.world.CompositeDataSet = some items) :
    (ComputeBounds s).Bounds = boundsLoop items UninitializeBounds := by
  simp [ComputeBounds, h, Modified]

theorem AreBoundsInitialized_UninitializeBounds :
    AreBoundsInitialized UninitializeBounds = false := by
  simp [AreBoundsInitialized, UninitializeBounds]

/-- From the uninitialized box, a first polydata item with `xmin ≤ xmax` seeds the box and
every later polydata item expands it. -/
theorem foldl_seed_then_expand (pd : vtkPolyData) (L : List vtkPolyData)
    (hpd : pd.bounds.xmin ≤ pd.bounds.xmax) :
    (pd :: L).foldl
        (fun c q => if AreBoundsInitialized c then expandBounds c q.bounds else q.bounds)
        UninitializeBounds =
      L.foldl (fun c q => expandBounds c q.bounds) pd.bounds := by
  simp only [List.foldl_cons, AreBoundsInitialized_UninitializeBounds, Bool.false_eq_true,
    if_false]
  exact (foldl_of_initialized L pd.bounds ((AreBoundsInitialized_iff _).mpr hpd)).1

/-- C3. On a hierarchical source whose polydata items all have valid bounds, `ComputeBounds`
leaves `Bounds` equal, on each axis, to the minimum of the items' minima and the maximum of
the items' maxima over all polydata items (and to the uninitialized box when there is no
polydata item).  In particular the items `[(0,1),(0,1),(0,1)]` and
`[(-1,1/2),(2,3),(0,1/5)]` give `[(-1,1),(0,3),(0,1)]`. -/
theorem C3_bounds_are_axiswise_extrema (s : State) (items : List vtkDataObject)
    (h : s.world.CompositeDataSet = some items)
    (hv : ∀ pd ∈ items.filterMap SafeDownCast, pd.bounds.Valid) :
    (items.filterMap SafeDownCast = [] → (ComputeBounds s).Bounds = UninitializeBounds) ∧
      (items.filterMap SafeDownCast ≠ [] →
        IsMinOf Bounds.xmin (items.filterMap SafeDownCast) (ComputeBounds s).Bounds.xmin ∧
        IsMaxOf Bounds.xmax (items.filterMap SafeDownCast) (ComputeBounds s).Bounds.xmax ∧
        IsMinOf Bounds.ymin (items.filterMap SafeDownCast) (ComputeBounds s).Bounds.ymin ∧
        IsMaxOf Bounds.ymax (items.filterMap SafeDownCast) (ComputeBounds s).Bounds.ymax ∧
        IsMinOf Bounds.zmin (items.filterMap SafeDownCast) (ComputeBounds s).Bounds.zmin ∧
        IsMaxOf Bounds.zmax (items.filterMap SafeDownCast) (ComputeBounds s).Bounds.zmax) ∧
      ∀ i j : Nat,
        items = [vtkDataObject.polyData ⟨i, ⟨0, 1, 0, 1, 0, 1⟩⟩,
          vtkDataObject.polyData ⟨j, ⟨-1, 1 / 2, 2, 3, 0, 1 / 5⟩⟩] →
        (ComputeBounds s).Bounds = ⟨-1, 1, 0, 3, 0, 1⟩ := by
  rw [ComputeBounds_hier_Bounds s items h, boundsLoop_eq_foldl]
  refine ⟨?_, ?_, ?_⟩
  · intro hL
    rw [hL]; rfl
  · intro hL
    cases hacc : items.filterMap SafeDownCast with
    | nil => exact absurd hacc hL
    | cons pd L =>
      have hpd : pd.bounds.Valid := hv pd (by rw [hacc]; exact List.mem_cons_self _ _)
      rw [foldl_seed_then_expand pd L hpd.1, foldl_expandBounds_eq]
      exact ⟨isMinOf_foldl Bounds.xmin pd L, isMaxOf_foldl Bounds.xmax pd L,
        isMinOf_foldl Bounds.ymin pd L, isMaxOf_foldl Bounds.ymax pd L,
        isMinOf_foldl Bounds.zmin pd L, isMaxOf_foldl Bounds.zmax pd L⟩
  · intro i j hitems
    subst hitems
    simp only [List.filterMap_cons, SafeDownCast, List.filterMap_nil]
    rw [foldl_seed_then_expand _ _ (by norm_num), foldl_expandBounds_eq]
    simp only [List.map_cons, List.map_nil, List.foldl_cons, List.foldl_nil, Bounds.mk.injEq]
    norm_num

theorem C3_bounds_are_axiswise_extrema_witness :
    (exHier [vtkDataObject.polyData ⟨10, exBoxA⟩,
        vtkDataObject.polyData ⟨11, exBoxB⟩]).world.CompositeDataSet =
        some [vtkDataObject.polyData ⟨10, exBoxA⟩, vtkDataObject.polyData ⟨11, exBoxB⟩] ∧
      (∀ pd ∈ [vtkDataObject.polyData ⟨10, exBoxA⟩,
          vtkDataObject.polyData ⟨11, exBoxB⟩].filterMap SafeDownCast, pd.bounds.Valid) ∧
      (ComputeBounds (exHier [vtkDataObject.polyData ⟨10, exBoxA⟩,
        vtkDataObject.polyData ⟨11, exBoxB⟩])).Bounds = ⟨-1, 1, 0, 3, 0, 1⟩ := by
  have hv : ∀ pd ∈ [vtkDataObject.polyData ⟨10, exBoxA⟩,
      vtkDataObject.polyData ⟨11, exBoxB⟩].filterMap SafeDownCast, pd.bounds.Valid := by
    simp only [List.filterMap_cons, SafeDownCast, List.filterMap_nil, List.mem_cons,
      List.mem_nil_iff, or_false, forall_eq_or_imp, forall_eq, Bounds.Valid, exBoxA, exBoxB]
    norm_num
  exact ⟨rfl, hv, (C3_bounds_are_axiswise_extrema _ _ rfl hv).2.2 10 11 rfl⟩

/-! ## ComputeBounds and GetBounds -/

/-- C4. Evaluation at a source where an empty polydata item (bounds `(1,-1,1,-1,1,-1)`)
follows a valid one with box `[(5,6),(5,6),(5,6)]`: the expansion branch folds the
sentinel values in, the result is `[(1,6),(1,6),(1,6)]` and not the box of the only valid
item; with the two items in the other order the result is that box. -/
theorem C4_empty_item_after_valid_item_widens_box :
    (ComputeBounds (exHier [vtkDataObject.polyData ⟨10, exBoxC⟩,
        vtkDataObject.polyData ⟨11, UninitializeBounds⟩])).Bounds = ⟨1, 6, 1, 6, 1, 6⟩ ∧
      (ComputeBounds (exHier [vtkDataObject.polyData ⟨10, exBoxC⟩,
        vtkDataObject.polyData ⟨11, UninitializeBounds⟩])).Bounds ≠ exBoxC ∧
      (ComputeBounds (exHier [vtkDataObject.polyData ⟨11, UninitializeBounds⟩,
        vtkDataObject.polyData ⟨10, exBoxC⟩])).Bounds = exBoxC ∧
      exBoxC.Valid ∧ ¬ UninitializeBounds.Valid := by
  refine ⟨?_, ?_, ?_, ?_, ?_⟩ <;> decide

/-- C5 as stated fails: with an input attached, an empty hierarchical source and a stale
bounds cache, `GetBounds` returns `(1,-1,1,-1,1,-1)`, not the box `[-1,1,-1,1,-1,1]` that
it returns without input. -/
theorem C5_counterexample :
    (exHier []).world.GetInput = true ∧
      (exHier []).world.CompositeDataSet = some [] ∧
      (exHier []).world.PipelineMTime > (exHier []).BoundsMTime ∧
      (GetBounds id (exHier [])).1 = ⟨1, -1, 1, -1, 1, -1⟩ ∧
      (GetBounds id (exHier [])).1 ≠ staticBounds ∧
      (GetBounds id exNoInput).1 = staticBounds := by
  refine ⟨?_, ?_, ?_, ?_, ?_, ?_⟩ <;> decide

theorem ComputeBounds_no_contribution (s : State)
    (hno : (∃ items, s.world.CompositeDataSet = some items ∧
        items.filterMap SafeDownCast = []) ∨
      (s.world.CompositeDataSet = none ∧ s.world.InputData.bind SafeDownCast = none)) :
    (ComputeBounds s).Bounds = UninitializeBounds := by
  rcases hno with ⟨items, h1, h2⟩ | ⟨h1, h2⟩
  · rw [ComputeBounds_hier_Bounds s items h1, boundsLoop_eq_foldl, h2]; rfl
  · simp [ComputeBounds, h1, h2]

/-- C5 (amended). With an input attached, a stale bounds cache and no item contributing
bounds after the pipeline update (a hierarchical source without polydata items, or a flat
input that is not polydata), `GetBounds` returns the uninitialized box `(1,-1,1,-1,1,-1)`,
which is not the box `[-1,1,-1,1,-1,1]` returned without input. -/
theorem C5_no_contribution_returns_uninitialized_box (update : World → World) (s : State)
    (hin : s.world.GetInput = true)
    (hstale : (update s.world).PipelineMTime > s.BoundsMTime)
    (hno : (∃ items, (update s.world).CompositeDataSet = some items ∧
        items.filterMap SafeDownCast = []) ∨
      ((update s.world).CompositeDataSet = none ∧
        (update s.world).InputData.bind SafeDownCast = none)) :
    (GetBounds update s).1 = UninitializeBounds ∧
      UninitializeBounds = ⟨1, -1, 1, -1, 1, -1⟩ ∧
      (GetBounds update s).1 ≠ staticBounds := by
  have h1 : (GetBounds update s).1 = UninitializeBounds := by
    simp only [GetBounds, hin, Bool.not_true, Bool.false_eq_true, if_false, hstale, if_true]
    exact ComputeBounds_no_contribution _ hno
  refine ⟨h1, rfl, ?_⟩
  rw [h1]; decide

theorem C5_no_contribution_returns_uninitialized_box_witness :
    (exFlat (some (vtkDataObject.other 3))).world.GetInput = true ∧
      (GetBounds id (exFlat (some (vtkDataObject.other 3)))).1 = UninitializeBounds ∧
      (GetBounds id (exFlat (some (vtkDataObject.other 3)))).1 ≠ staticBounds :=
  ⟨rfl,
    (C5_no_contribution_returns_uninitialized_box id (exFlat (some (vtkDataObject.other 3)))
      rfl (by decide) (Or.inr ⟨rfl, rfl⟩)).1,
    (C5_no_contribution_returns_uninitialized_box id (exFlat (some (vtkDataObject.other 3)))
      rfl (by decide) (Or.inr ⟨rfl, rfl⟩)).2.2⟩

/-- C6. With no input attached, `GetBounds` returns `[-1,1,-1,1,-1,1]` and the state after
the call is the state before it, whatever a pipeline update would have done: the trace has
no new entry (no `Update`, no iterator, no entry into `ComputeBounds`), and `Bounds`,
`BoundsMTime`, the pool and `InternalMappersBuildTime` keep their values. -/
theorem C6_no_input_returns_static_box_and_changes_nothing (update : World → World)
    (s : State) (h : s.world.GetInput = false) :
    (GetBounds update s).1 = ⟨-1, 1, -1, 1, -1, 1⟩ ∧
      (GetBounds update s).2 = s ∧
      (GetBounds update s).2.trace = s.trace ∧
      (GetBounds update s).2.world = s.world ∧
      (GetBounds update s).2.Bounds = s.Bounds ∧
      (GetBounds update s).2.BoundsMTime = s.BoundsMTime ∧
      (GetBounds update s).2.Mappers = s.Mappers ∧
      (GetBounds update s).2.InternalMappersBuildTime = s.InternalMappersBuildTime := by
  have h2 : GetBounds update s = (staticBounds, s) := by simp [GetBounds, h]
  rw [h2]
  exact ⟨rfl, rfl, rfl, rfl, rfl, rfl, rfl, rfl⟩

theorem C6_no_input_returns_static_box_and_changes_nothing_witness :
    exNoInput.world.GetInput = false ∧
      (GetBounds (fun w => { w with PipelineMTime := w.PipelineMTime + 1 }) exNoInput).1 =
        ⟨-1, 1, -1, 1, -1, 1⟩ ∧
      (GetBounds (fun w => { w with PipelineMTime := w.PipelineMTime + 1 }) exNoInput).2 =
        exNoInput :=
  ⟨rfl,
    (C6_no_input_returns_static_box_and_changes_nothing
      (fun w => { w with PipelineMTime := w.PipelineMTime + 1 }) exNoInput rfl).1,
    (C6_no_input_returns_static_box_and_changes_nothing
      (fun w => { w with PipelineMTime := w.PipelineMTime + 1 }) exNoInput rfl).2.1⟩

/-- C7. Evaluation at a flat polydata input with a stale bounds cache
(`PipelineMTime = 5`, `BoundsMTime = 2`): `ComputeBounds` returns at line 180 without
reaching `BoundsMTime.Modified()`, so `BoundsMTime` is still 2 after `GetBounds`, and a
second `GetBounds` with the pipeline unchanged enters `ComputeBounds` again.  On the
hierarchical path the same call sets `BoundsMTime` to the new clock value. -/
theorem C7_flat_input_leaves_BoundsMTime_stale :
    (ComputeBounds (exFlat (some (vtkDataObject.polyData ⟨10, exBoxC⟩)))).BoundsMTime = 2 ∧
      (GetBounds id (exFlat (some (vtkDataObject.polyData ⟨10, exBoxC⟩)))).2.BoundsMTime = 2 ∧
      (GetBounds id (exFlat (some (vtkDataObject.polyData ⟨10, exBoxC⟩)))).2.world.PipelineMTime
        = 5 ∧
      calls Fn.ComputeBounds
        (GetBounds id (exFlat (some (vtkDataObject.polyData ⟨10, exBoxC⟩)))).2.trace = 1 ∧
      calls Fn.ComputeBounds
        (GetBounds id (GetBounds id
          (exFlat (some (vtkDataObject.polyData ⟨10, exBoxC⟩)))).2).2.trace = 2 ∧
      (ComputeBounds (exHier [vtkDataObject.polyData ⟨10, exBoxC⟩])).BoundsMTime = 8 ∧
      calls Fn.ComputeBounds
        (GetBounds id (GetBounds id
          (exHier [vtkDataObject.polyData ⟨10, exBoxC⟩])).2).2.trace = 1 := by
  refine ⟨?_, ?_, ?_, ?_, ?_, ?_, ?_⟩ <;> decide

/-! ## The staleness gates -/

theorem BuildPolyDataMapper_frame (s : State) :
    (BuildPolyDataMapper s).world = { s.world with clock := s.world.clock + 1 } ∧
      (BuildPolyDataMapper s).InternalMappersBuildTime = s.world.clock + 1 ∧
      (BuildPolyDataMapper s).Bounds = s.Bounds ∧
      (BuildPolyDataMapper s).BoundsMTime = s.BoundsMTime ∧
      (BuildPolyDataMapper s).ClippingPlanes = s.ClippingPlanes := by
  cases hc : s.world.CompositeDataSet with
  | none =>
    cases hi : s.world.InputData.bind SafeDownCast with
    | none => simp [BuildPolyDataMapper, deleteMappers, hc, hi, Modified]
    | some pd => simp [BuildPolyDataMapper, deleteMappers, hc, hi, Modified, pushNewMapper]
  | some items =>
    simp [BuildPolyDataMapper, deleteMappers, hc, Modified, buildLoop_frame]

theorem countP_deletes_eq_zero (p : Event → Bool) (hDel : ∀ m, p (Event.Delete m) = false)
    (ms : List vtkPolyDataMapper) :
    (ms.map (fun m => Event.Delete m.id)).countP p = 0 := by
  rw [List.countP_eq_zero]
  intro e he
  rw [List.mem_map] at he
  obtain ⟨m, _, rfl⟩ := he
  simp [hDel]

theorem countP_renderLoop_eq_zero (p : Event → Bool)
    (hClip : ∀ m q, p (Event.SetClippingPlanes m q) = false)
    (hRen : ∀ m r a, p (Event.Render m r a) = false) (planes ren a : Nat)
    (ms : List vtkPolyDataMapper) :
    (renderLoop planes ren a ms).countP p = 0 := by
  induction ms with
  | nil => rfl
  | cons m rest ih => simp [renderLoop, List.countP_cons, hClip, hRen, ih]

theorem BuildPolyDataMapper_calls (s : State) :
    calls Fn.BuildPolyDataMapper (BuildPolyDataMapper s).trace =
        calls Fn.BuildPolyDataMapper s.trace + 1 ∧
      calls Fn.ComputeBounds (BuildPolyDataMapper s).trace = calls Fn.ComputeBounds s.trace := by
  cases hc : s.world.CompositeDataSet with
  | none =>
    cases hi : s.world.InputData.bind SafeDownCast with
    | none =>
      simp [BuildPolyDataMapper, deleteMappers, hc, hi, calls, List.countP_append,
        countP_deletes_eq_zero]
    | some pd =>
      simp [BuildPolyDataMapper, deleteMappers, hc, hi, calls, List.countP_append,
        countP_deletes_eq_zero, pushNewMapper]
  | some items =>
    simp only [BuildPolyDataMapper, deleteMappers, hc, calls]
    rw [buildLoop_countP _ (by simp) (by simp) (by simp),
      buildLoop_countP _ (by simp) (by simp) (by simp)]
    simp [List.countP_append, countP_deletes_eq_zero]

theorem ComputeBounds_calls (s : State) :
    calls Fn.ComputeBounds (ComputeBounds s).trace = calls Fn.ComputeBounds s.trace + 1 := by
  cases hc : s.world.CompositeDataSet with
  | none =>
    cases hi : s.world.InputData.bind SafeDownCast with
    | none => simp [ComputeBounds, hc, hi, calls, List.countP_append]
    | some pd => simp [ComputeBounds, hc, hi, calls, List.countP_append]
  | some items => simp [ComputeBounds, hc, calls, List.countP_append]

/-- C8. With the pipeline time stamp not ahead of the clock, the first of two consecutive
`Render` calls leaves `InternalMappersBuildTime` at least as new as the pipeline, so the
second call does not rebuild: the pool after the second call is the pool after the first,
no delegate is created, and the only trace entries the second call adds are the
`SetClippingPlanes`/`Render` pairs of the fan-out loop (no `Delete`, `New`, iterator or
entry into `BuildPolyDataMapper`). -/
theorem C8_second_render_does_not_rebuild (ren a ren2 a2 : Nat) (s : State)
    (hclock : s.world.PipelineMTime ≤ s.world.clock) :
    (Render ren2 a2 (Render ren a s)).Mappers = (Render ren a s).Mappers ∧
      (Render ren2 a2 (Render ren a s)).created = (Render ren a s).created ∧
      (Render ren2 a2 (Render ren a s)).trace =
        (Render ren a s).trace ++
          renderLoop (Render ren a s).ClippingPlanes ren2 a2 (Render ren a s).Mappers ∧
      (Render ren2 a2 (Render ren a s)).InternalMappersBuildTime =
        (Render ren a s).InternalMappersBuildTime ∧
      calls Fn.BuildPolyDataMapper (Render ren2 a2 (Render ren a s)).trace =
        calls Fn.BuildPolyDataMapper (Render ren a s).trace ∧
      traversals (Render ren2 a2 (Render ren a s)).trace = traversals (Render ren a s).trace ∧
      (Render ren2 a2 (Render ren a s)).trace.countP
          (fun e => match e with
            | Event.Delete _ => true
            | Event.New _ => true
            | _ => false) =
        (Render ren a s).trace.countP
          (fun e => match e with
            | Event.Delete _ => true
            | Event.New _ => true
            | _ => false) := by
  have hgate : ¬ ((Render ren a s).world.PipelineMTime >
      (Render ren a s).InternalMappersBuildTime) := by
    by_cases hg : s.world.PipelineMTime > s.InternalMappersBuildTime
    · obtain ⟨hw, ht, _⟩ := BuildPolyDataMapper_frame s
      simp only [Render, hg, if_true, hw, ht]
      omega
    · simp only [Render, hg, if_false]
      exact not_false
  have hsecond : Render ren2 a2 (Render ren a s) =
      { Render ren a s with
        trace := (Render ren a s).trace ++
          renderLoop (Render ren a s).ClippingPlanes ren2 a2 (Render ren a s).Mappers } := by
    generalize Render ren a s = s1 at hgate ⊢
    simp only [Render, hgate, if_false]
  rw [hsecond]
  refine ⟨rfl, rfl, rfl, rfl, ?_, ?_, ?_⟩
  · simp only [calls, List.countP_append]
    rw [countP_renderLoop_eq_zero _ (by simp) (by simp)]; rfl
  · simp only [traversals, List.countP_append]
    rw [countP_renderLoop_eq_zero _ (by simp) (by simp)]; rfl
  · simp only [List.countP_append]
    rw [countP_renderLoop_eq_zero _ (by simp) (by simp)]; rfl

theorem C8_second_render_does_not_rebuild_witness :
    (exHier exFiveItems).world.PipelineMTime ≤ (exHier exFiveItems).world.clock ∧
      (Render 1 2 (Render 1 2 (exHier exFiveItems))).Mappers =
        (Render 1 2 (exHier exFiveItems)).Mappers ∧
      (Render 1 2 (exHier exFiveItems)).Mappers =
        [⟨1, ⟨10, exBoxA⟩⟩, ⟨2, ⟨12, exBoxC⟩⟩, ⟨3, ⟨14, exBoxA⟩⟩] ∧
      calls Fn.BuildPolyDataMapper (Render 1 2 (Render 1 2 (exHier exFiveItems))).trace = 1 :=
  ⟨by decide,
    (C8_second_render_does_not_rebuild 1 2 1 2 (exHier exFiveItems) (by decide)).1,
    by decide,
    ((C8_second_render_does_not_rebuild 1 2 1 2 (exHier exFiveItems)
      (by decide)).2.2.2.2.1).trans (by decide)⟩

/-- C9. Both caches use the same strict comparison.  For every state, `Render` enters
`BuildPolyDataMapper` exactly when the pipeline time stamp is strictly greater than
`InternalMappersBuildTime`, whether or not an input is attached.  For every state with an
input attached, `GetBounds` enters `ComputeBounds` exactly when the pipeline time stamp
(read after `Update()`) is strictly greater than `BoundsMTime`.  Equal time stamps trigger
neither. -/
theorem C9_strict_comparison_gates_both_caches (ren a : Nat) (update : World → World)
    (s : State) :
    calls Fn.BuildPolyDataMapper (Render ren a s).trace =
        calls Fn.BuildPolyDataMapper s.trace +
          (if s.world.PipelineMTime > s.InternalMappersBuildTime then 1 else 0) ∧
      (s.world.GetInput = true →
        calls Fn.ComputeBounds (GetBounds update s).2.trace =
          calls Fn.ComputeBounds s.trace +
            (if (update s.world).PipelineMTime > s.BoundsMTime then 1 else 0)) ∧
      (s.world.PipelineMTime = s.InternalMappersBuildTime →
        calls Fn.BuildPolyDataMapper (Render ren a s).trace =
          calls Fn.BuildPolyDataMapper s.trace) ∧
      (s.world.GetInput = true → (update s.world).PipelineMTime = s.BoundsMTime →
        calls Fn.ComputeBounds (GetBounds update s).2.trace =
          calls Fn.ComputeBounds s.trace) := by
  have hR : calls Fn.BuildPolyDataMapper (Render ren a s).trace =
      calls Fn.BuildPolyDataMapper s.trace +
        (if s.world.PipelineMTime > s.InternalMappersBuildTime then 1 else 0) := by
    by_cases hg : s.world.PipelineMTime > s.InternalMappersBuildTime
    · simp only [Render, hg, if_true, calls, List.countP_append]
      rw [countP_renderLoop_eq_zero _ (by simp) (by simp)]
      exact (BuildPolyDataMapper_calls s).1
    · simp only [Render, hg, if_false, calls, List.countP_append]
      rw [countP_renderLoop_eq_zero _ (by simp) (by simp)]
  have hG : s.world.GetInput = true →
      calls Fn.ComputeBounds (GetBounds update s).2.trace =
        calls Fn.ComputeBounds s.trace +
          (if (update s.world).PipelineMTime > s.BoundsMTime then 1 else 0) := by
    intro hin
    by_cases hg : (update s.world).PipelineMTime > s.BoundsMTime
    · simp only [GetBounds, hin, Bool.not_true, Bool.false_eq_true, if_false, hg, if_true]
      rw [ComputeBounds_calls]
      simp [calls, List.countP_append]
    · simp only [GetBounds, hin, Bool.not_true, Bool.false_eq_true, if_false, hg]
      simp [calls, List.countP_append]
  refine ⟨hR, hG, ?_, ?_⟩
  · intro he
    rw [hR, if_neg (by omega)]; rfl
  · intro hin he
    rw [hG hin, if_neg (by omega)]; rfl

theorem C9_strict_comparison_gates_both_caches_witness :
    exNoInput.world.GetInput = false ∧
      calls Fn.BuildPolyDataMapper (Render 1 2 exNoInput).trace = 1 ∧
      (exHier exFiveItems).world.GetInput = true ∧
      calls Fn.BuildPolyDataMapper (Render 1 2 (exHier exFiveItems)).trace = 1 ∧
      calls Fn.ComputeBounds (GetBounds id (exHier exFiveItems)).2.trace = 1 ∧
      calls Fn.ComputeBounds
        (GetBounds (fun w => { w with PipelineMTime := 2 }) (exHier exFiveItems)).2.trace = 0 :=
  ⟨rfl,
    (C9_strict_comparison_gates_both_caches 1 2 id exNoInput).1,
    rfl,
    (C9_strict_comparison_gates_both_caches 1 2 id (exHier exFiveItems)).1,
    (C9_strict_comparison_gates_both_caches 1 2 id (exHier exFiveItems)).2.1 rfl,
    (C9_strict_comparison_gates_both_caches 1 2 (fun w => { w with PipelineMTime := 2 })
      (exHier exFiveItems)).2.2.2 rfl rfl⟩

/-! ## BuildPolyDataMapper on a flat input -/

/-- C10. On a non-hierarchical input `BuildPolyDataMapper` leaves a pool of exactly one new
delegate bound to the input when it is polydata, and an empty pool when it is not polydata
or is null.  In both cases no diagnostic is emitted, no composite iterator is obtained, and
`InternalMappersBuildTime` is set to the new clock value. -/
theorem C10_flat_input_pool (s : State) (h : s.world.CompositeDataSet = none) :
    (∀ pd, s.world.InputData = some (vtkDataObject.polyData pd) →
        (BuildPolyDataMapper s).Mappers = [⟨s.created, pd⟩]) ∧
      ((s.world.InputData = none ∨ ∃ i, s.world.InputData = some (vtkDataObject.other i)) →
        (BuildPolyDataMapper s).Mappers = []) ∧
      errorCount (BuildPolyDataMapper s).trace = errorCount s.trace ∧
      traversals (BuildPolyDataMapper s).trace = traversals s.trace ∧
      (BuildPolyDataMapper s).InternalMappersBuildTime = s.world.clock + 1 ∧
      (BuildPolyDataMapper s).world.clock = s.world.clock + 1 := by
  refine ⟨?_, ?_, ?_, ?_, (BuildPolyDataMapper_frame s).2.1, ?_⟩
  · intro pd hpd
    simp [BuildPolyDataMapper, deleteMappers, h, hpd, SafeDownCast, pushNewMapper]
  · rintro (hn | ⟨i, hi⟩)
    · simp [BuildPolyDataMapper, deleteMappers, h, hn]
    · simp [BuildPolyDataMapper, deleteMappers, h, hi, SafeDownCast]
  · cases hi : s.world.InputData.bind SafeDownCast with
    | none =>
      simp [BuildPolyDataMapper, deleteMappers, h, hi, errorCount, List.countP_append,
        countP_deletes_eq_zero]
    | some pd =>
      simp [BuildPolyDataMapper, deleteMappers, h, hi, errorCount, List.countP_append,
        countP_deletes_eq_zero, pushNewMapper]
  · cases hi : s.world.InputData.bind SafeDownCast with
    | none =>
      simp [BuildPolyDataMapper, deleteMappers, h, hi, traversals, List.countP_append,
        countP_deletes_eq_zero]
    | some pd =>
      simp [BuildPolyDataMapper, deleteMappers, h, hi, traversals, List.countP_append,
        countP_deletes_eq_zero, pushNewMapper]
  · rw [(BuildPolyDataMapper_frame s).1]

theorem C10_flat_input_pool_witness :
    (exFlat (some (vtkDataObject.polyData ⟨10, exBoxC⟩))).world.CompositeDataSet = none ∧
      (BuildPolyDataMapper (exFlat (some (vtkDataObject.polyData ⟨10, exBoxC⟩)))).Mappers =
        [⟨1, ⟨10, exBoxC⟩⟩] ∧
      errorCount (BuildPolyDataMapper
          (exFlat (some (vtkDataObject.polyData ⟨10, exBoxC⟩)))).trace =
        errorCount (exFlat (some (vtkDataObject.polyData ⟨10, exBoxC⟩))).trace :=
  ⟨rfl,
    (C10_flat_input_pool (exFlat (some (vtkDataObject.polyData ⟨10, exBoxC⟩))) rfl).1
      ⟨10, exBoxC⟩ rfl,
    (C10_flat_input_pool (exFlat (some (vtkDataObject.polyData ⟨10, exBoxC⟩))) rfl).2.2.1⟩

/-! ## Independence of the two caches -/

theorem ComputeBounds_frame (s : State) :
    (ComputeBounds s).Mappers = s.Mappers ∧
      (ComputeBounds s).InternalMappersBuildTime = s.InternalMappersBuildTime ∧
      (ComputeBounds s).created = s.created ∧
      (ComputeBounds s).ClippingPlanes = s.ClippingPlanes := by
  cases hc : s.world.CompositeDataSet with
  | none =>
    cases hi : s.world.InputData.bind SafeDownCast with
    | none => simp [ComputeBounds, hc, hi]
    | some pd => simp [ComputeBounds, hc, hi]
  | some items => simp [ComputeBounds, hc, Modified]

theorem ComputeBounds_countP (p : Event → Bool)
    (hEnter : p (Event.enter Fn.ComputeBounds) = false) (hIter : p Event.NewIterator = false)
    (s : State) : (ComputeBounds s).trace.countP p = s.trace.countP p := by
  cases hc : s.world.CompositeDataSet with
  | none =>
    cases hi : s.world.InputData.bind SafeDownCast with
    | none => simp [ComputeBounds, hc, hi, List.countP_append, hEnter]
    | some pd => simp [ComputeBounds, hc, hi, List.countP_append, hEnter]
  | some items => simp [ComputeBounds, hc, Modified, List.countP_append, hEnter, hIter]

theorem GetBounds_frame (update : World → World) (s : State) :
    (GetBounds update s).2.Mappers = s.Mappers ∧
      (GetBounds update s).2.InternalMappersBuildTime = s.InternalMappersBuildTime ∧
      (GetBounds update s).2.created = s.created ∧
      (GetBounds update s).2.ClippingPlanes = s.ClippingPlanes := by
  cases hin : s.world.GetInput with
  | false => simp [GetBounds, hin]
  | true =>
    by_cases hg : (update s.world).PipelineMTime > s.BoundsMTime
    · simp only [GetBounds, hin, Bool.not_true, Bool.false_eq_true, if_false, hg, if_true]
      obtain ⟨h1, h2, h3, h4⟩ := ComputeBounds_frame
        { s with world := update s.world, trace := s.trace ++ [Event.Update] }
      exact ⟨h1, h2, h3, h4⟩
    · simp [GetBounds, hin, hg]

theorem GetBounds_countP (p : Event → Bool)
    (hEnter : p (Event.enter Fn.ComputeBounds) = false) (hIter : p Event.NewIterator = false)
    (hUpd : p Event.Update = false) (update : World → World) (s : State) :
    (GetBounds update s).2.trace.countP p = s.trace.countP p := by
  cases hin : s.world.GetInput with
  | false => simp [GetBounds, hin]
  | true =>
    by_cases hg : (update s.world).PipelineMTime > s.BoundsMTime
    · simp only [GetBounds, hin, Bool.not_true, Bool.false_eq_true, if_false, hg, if_true]
      rw [ComputeBounds_countP p hEnter hIter]
      simp [List.countP_append, hUpd]
    · simp [GetBounds, hin, hg, List.countP_append, hUpd]

theorem Render_frame (ren a : Nat) (s : State) :
    (Render ren a s).Bounds = s.Bounds ∧ (Render ren a s).BoundsMTime = s.BoundsMTime ∧
      (Render ren a s).ClippingPlanes = s.ClippingPlanes := by
  by_cases hg : s.world.PipelineMTime > s.InternalMappersBuildTime
  · obtain ⟨_, _, h3, h4, h5⟩ := BuildPolyDataMapper_frame s
    simp only [Render, hg, if_true]
    exact ⟨h3, h4, h5⟩
  · simp [Render, hg]

/-- C12. The two caches are independent.  `GetBounds` leaves the delegate pool and
`InternalMappersBuildTime` unchanged: it creates no delegate, releases none and does not
enter `BuildPolyDataMapper`.  `Render` leaves `Bounds` and `BoundsMTime` unchanged and does
not enter `ComputeBounds`. -/
theorem C12_caches_are_independent (ren a : Nat) (update : World → World) (s : State) :
    ((GetBounds update s).2.Mappers = s.Mappers ∧
        (GetBounds update s).2.InternalMappersBuildTime = s.InternalMappersBuildTime ∧
        (GetBounds update s).2.created = s.created ∧
        creations (GetBounds update s).2.trace = creations s.trace ∧
        releases (GetBounds update s).2.trace = releases s.trace ∧
        calls Fn.BuildPolyDataMapper (GetBounds update s).2.trace =
          calls Fn.BuildPolyDataMapper s.trace) ∧
      ((Render ren a s).Bounds = s.Bounds ∧
        (Render ren a s).BoundsMTime = s.BoundsMTime ∧
        calls Fn.ComputeBounds (Render ren a s).trace = calls Fn.ComputeBounds s.trace) := by
  obtain ⟨h1, h2, h3, _⟩ := GetBounds_frame update s
  obtain ⟨h5, h6, _⟩ := Render_frame ren a s
  refine ⟨⟨h1, h2, h3, ?_, ?_, ?_⟩, h5, h6, ?_⟩
  · exact GetBounds_countP _ rfl rfl rfl update s
  · exact GetBounds_countP _ rfl rfl rfl update s
  · exact GetBounds_countP _ (by decide) (by decide) (by decide) update s
  · by_cases hg : s.world.PipelineMTime > s.InternalMappersBuildTime
    · simp only [Render, hg, if_true, calls, List.countP_append]
      rw [countP_renderLoop_eq_zero _ (by simp) (by simp)]
      exact (BuildPolyDataMapper_calls s).2
    · simp only [Render, hg, if_false, calls, List.countP_append]
      rw [countP_renderLoop_eq_zero _ (by simp) (by simp)]
      rfl

/-! ## The fan-out loop of Render -/

theorem buildLoop_filter (p : Event → Bool) (hNew : ∀ m, p (Event.New m) = false)
    (hSet : ∀ m pd, p (Event.SetInput m pd) = false) (hErr : ∀ msg, p (Event.Error msg) = false)
    (items : List vtkDataObject) (w : Bool) (s : State) :
    (buildLoop items w s).trace.filter p = s.trace.filter p := by
  induction items generalizing w s with
  | nil => simp [buildLoop]
  | cons obj rest ih =>
    cases obj with
    | polyData pd =>
      simp [buildLoop, SafeDownCast, ih, pushNewMapper, hNew, hSet]
    | other i =>
      cases w <;> simp [buildLoop, SafeDownCast, ih, vtkErrorMacro, hErr]

theorem filter_deletes_eq_nil (p : Event → Bool) (hDel : ∀ m, p (Event.Delete m) = false)
    (ms : List vtkPolyDataMapper) :
    (ms.map (fun m => Event.Delete m.id)).filter p = [] := by
  rw [List.filter_eq_nil_iff]
  intro e he
  rw [List.mem_map] at he
  obtain ⟨m, _, rfl⟩ := he
  simp [hDel]

theorem BuildPolyDataMapper_delegateCalls (s : State) :
    delegateCalls (BuildPolyDataMapper s).trace = delegateCalls s.trace := by
  cases hc : s.world.CompositeDataSet with
  | none =>
    cases hi : s.world.InputData.bind SafeDownCast with
    | none =>
      simp [BuildPolyDataMapper, deleteMappers, hc, hi, delegateCalls, filter_deletes_eq_nil]
    | some pd =>
      simp [BuildPolyDataMapper, deleteMappers, hc, hi, delegateCalls, filter_deletes_eq_nil,
        pushNewMapper]
  | some items =>
    simp only [BuildPolyDataMapper, deleteMappers, hc, delegateCalls]
    rw [buildLoop_filter _ (by simp) (by simp) (by simp)]
    simp [filter_deletes_eq_nil]

theorem renderLoop_eq_flatMap (planes ren a : Nat) (ms : List vtkPolyDataMapper) :
    renderLoop planes ren a ms =
      ms.flatMap (fun m => [Event.SetClippingPlanes m.id planes, Event.Render m.id ren a]) := by
  induction ms with
  | nil => rfl
  | cons m rest ih => simp [renderLoop, ih]

theorem delegateCalls_renderLoop (planes ren a : Nat) (ms : List vtkPolyDataMapper) :
    delegateCalls (renderLoop planes ren a ms) = renderLoop planes ren a ms := by
  induction ms with
  | nil => rfl
  | cons m rest ih =>
    simp only [delegateCalls] at ih
    simp [renderLoop, delegateCalls, ih]

theorem count_Render_renderLoop (planes ren a i : Nat) (ms : List vtkPolyDataMapper) :
    (renderLoop planes ren a ms).count (Event.Render i ren a) =
      (ms.map (fun m => m.id)).count i := by
  induction ms with
  | nil => rfl
  | cons m rest ih =>
    simp only [renderLoop, List.map_cons, List.count_cons, ih]
    by_cases hi : m.id = i <;> simp [hi]

/-! ## ComputeBounds on a flat input -/

/-- C14. On a non-hierarchical input `ComputeBounds` leaves `Bounds` equal to the bounds of
the input when it is polydata, and equal to the uninitialized box `(1,-1,1,-1,1,-1)` when
it is not polydata or is null, whatever `Bounds` held before the call. -/
theorem C14_flat_input_bounds (s : State) (h : s.world.CompositeDataSet = none) :
    (∀ pd, s.world.InputData = some (vtkDataObject.polyData pd) →
        (ComputeBounds s).Bounds = pd.bounds) ∧
      ((s.world.InputData = none ∨ ∃ i, s.world.InputData = some (vtkDataObject.other i)) →
        (ComputeBounds s).Bounds = UninitializeBounds) ∧
      UninitializeBounds = ⟨1, -1, 1, -1, 1, -1⟩ ∧
      ∀ b : Bounds, (ComputeBounds { s with Bounds := b }).Bounds = (ComputeBounds s).Bounds := by
  refine ⟨?_, ?_, rfl, ?_⟩
  · intro pd hpd
    simp [ComputeBounds, h, hpd, SafeDownCast]
  · rintro (hn | ⟨i, hi⟩)
    · simp [ComputeBounds, h, hn]
    · simp [ComputeBounds, h, hi, SafeDownCast]
  · intro b
    cases hi : s.world.InputData.bind SafeDownCast with
    | none => simp [ComputeBounds, h, hi]
    | some pd => simp [ComputeBounds, h, hi]

theorem C14_flat_input_bounds_witness :
    (exFlat (some (vtkDataObject.polyData ⟨10, exBoxC⟩))).world.CompositeDataSet = none ∧
      (ComputeBounds (exFlat (some (vtkDataObject.polyData ⟨10, exBoxC⟩)))).Bounds = exBoxC ∧
      (exFlat (some (vtkDataObject.other 3))).world.CompositeDataSet = none ∧
      (ComputeBounds (exFlat (some (vtkDataObject.other 3)))).Bounds = UninitializeBounds :=
  ⟨rfl,
    (C14_flat_input_bounds (exFlat (some (vtkDataObject.polyData ⟨10, exBoxC⟩))) rfl).1
      ⟨10, exBoxC⟩ rfl,
    rfl,
    (C14_flat_input_bounds (exFlat (some (vtkDataObject.other 3))) rfl).2.1
      (Or.inr ⟨3, rfl⟩)⟩

/-! ## Containment -/

theorem Bounds.Contains.refl (b : Bounds) : b.Contains b :=
  ⟨le_refl _, le_refl _, le_refl _, le_refl _, le_refl _, le_refl _⟩

theorem Bounds.Contains.trans {a b c : Bounds} (hab : a.Contains b) (hbc : b.Contains c) :
    a.Contains c := by
  obtain ⟨h1, h2, h3, h4, h5, h6⟩ := hab
  obtain ⟨g1, g2, g3, g4, g5, g6⟩ := hbc
  exact ⟨le_trans h1 g1, le_trans g2 h2, le_trans h3 g3, le_trans g4 h4, le_trans h5 g5,
    le_trans g6 h6⟩

theorem expandBounds_contains (cur b : Bounds) :
    (expandBounds cur b).Contains cur ∧ (expandBounds cur b).Contains b := by
  rw [expandBounds_eq]
  exact ⟨⟨min_le_left _ _, le_max_left _ _, min_le_left _ _, le_max_left _ _, min_le_left _ _,
      le_max_left _ _⟩,
    ⟨min_le_right _ _, le_max_right _ _, min_le_right _ _, le_max_right _ _,
      min_le_right _ _, le_max_right _ _⟩⟩

/-- From an initialized running box the loop only expands: the result contains the box it
started from. -/
theorem foldl_contains_start (L : List vtkPolyData) (cur : Bounds)
    (h : AreBoundsInitialized cur = true) :
    (L.foldl (fun c pd => if AreBoundsInitialized c then expandBounds c pd.bounds else pd.bounds)
      cur).Contains cur := by
  induction L generalizing cur with
  | nil => exact Bounds.Contains.refl cur
  | cons pd rest ih =>
    simp only [List.foldl_cons, h, if_true]
    exact (ih _ (AreBoundsInitialized_expandBounds cur pd.bounds h)).trans
      (expandBounds_contains cur pd.bounds).1

/-- Every polydata item with `xmin ≤ xmax` is contained in the result of the loop, whatever
the running box was and whatever the other items are. -/
theorem foldl_contains_item (L : List vtkPolyData) (cur : Bounds) (pd : vtkPolyData)
    (hmem : pd ∈ L) (hpd : pd.bounds.xmin ≤ pd.bounds.xmax) :
    (L.foldl (fun c q => if AreBoundsInitialized c then expandBounds c q.bounds else q.bounds)
      cur).Contains pd.bounds := by
  induction L generalizing cur with
  | nil => exact absurd hmem (List.not_mem_nil _)
  | cons q rest ih =>
    rcases List.mem_cons.mp hmem with rfl | hrest
    · simp only [List.foldl_cons]
      cases hc : AreBoundsInitialized cur with
      | true =>
        simp only [if_true]
        exact (foldl_contains_start rest _
          (AreBoundsInitialized_expandBounds cur pd.bounds hc)).trans
          (expandBounds_contains cur pd.bounds).2
      | false =>
        simp only [Bool.false_eq_true, if_false]
        exact foldl_contains_start rest _ ((AreBoundsInitialized_iff _).mpr hpd)
    · simp only [List.foldl_cons]
      exact ih _ hrest

/-- C15. On a hierarchical source, in whatever order the items come and whatever the bounds
of the other items are (valid, or the uninitialized box of an empty polydata), the box left
by `ComputeBounds` contains the box of every polydata item that has valid bounds. -/
theorem C15_result_contains_every_valid_item (s : State) (items : List vtkDataObject)
    (h : s.world.CompositeDataSet = some items) :
    ∀ pd ∈ items.filterMap SafeDownCast, pd.bounds.Valid →
      (ComputeBounds s).Bounds.xmin ≤ pd.bounds.xmin ∧
      pd.bounds.xmax ≤ (ComputeBounds s).Bounds.xmax ∧
      (ComputeBounds s).Bounds.ymin ≤ pd.bounds.ymin ∧
      pd.bounds.ymax ≤ (ComputeBounds s).Bounds.ymax ∧
      (ComputeBounds s).Bounds.zmin ≤ pd.bounds.zmin ∧
      pd.bounds.zmax ≤ (ComputeBounds s).Bounds.zmax := by
  intro pd hmem hv
  rw [ComputeBounds_hier_Bounds s items h, boundsLoop_eq_foldl]
  exact foldl_contains_item _ _ pd hmem hv.1

theorem C15_result_contains_every_valid_item_witness :
    (exHier [vtkDataObject.polyData ⟨10, exBoxC⟩,
        vtkDataObject.polyData ⟨11, UninitializeBounds⟩]).world.CompositeDataSet =
        some [vtkDataObject.polyData ⟨10, exBoxC⟩,
          vtkDataObject.polyData ⟨11, UninitializeBounds⟩] ∧
      exBoxC.Valid ∧
      (ComputeBounds (exHier [vtkDataObject.polyData ⟨10, exBoxC⟩,
        vtkDataObject.polyData ⟨11, UninitializeBounds⟩])).Bounds.xmin ≤ exBoxC.xmin ∧
      exBoxC.xmax ≤ (ComputeBounds (exHier [vtkDataObject.polyData ⟨10, exBoxC⟩,
        vtkDataObject.polyData ⟨11, UninitializeBounds⟩])).Bounds.xmax :=
  ⟨rfl, by decide,
    (C15_result_contains_every_valid_item _ _ rfl ⟨10, exBoxC⟩ (by decide) (by decide)).1,
    (C15_result_contains_every_valid_item _ _ rfl ⟨10, exBoxC⟩ (by decide) (by decide)).2.1⟩

/-! ## One acceptance rule for both traversals -/

theorem SafeDownCast_polyData (pd : vtkPolyData) :
    SafeDownCast (vtkDataObject.polyData pd) = some pd := rfl

theorem SafeDownCast_other (i : Nat) : SafeDownCast (vtkDataObject.other i) = none := rfl

theorem filterMap_filter_polydata (items : List vtkDataObject) :
    (items.filter (fun o => (SafeDownCast o).isSome)).filterMap SafeDownCast =
      items.filterMap SafeDownCast := by
  induction items with
  | nil => rfl
  | cons obj rest ih =>
    cases obj with
    | polyData pd => simp [SafeDownCast_polyData, ih]
    | other i => simp [SafeDownCast_other, ih]

theorem filterMap_map_polyData (L : List vtkPolyData) :
    (L.map vtkDataObject.polyData).filterMap SafeDownCast = L := by
  induction L with
  | nil => rfl
  | cons pd rest ih => simp [SafeDownCast_polyData, ih]

/-- From the uninitialized box, over a non-empty list of polydata that all have valid
bounds, the loop ends with the axis-wise extrema of exactly these polydata. -/
theorem foldl_extrema_of_valid (L : List vtkPolyData) (hL : L ≠ [])
    (hv : ∀ pd ∈ L, pd.bounds.Valid) :
    IsMinOf Bounds.xmin L (L.foldl (fun c pd =>
        if AreBoundsInitialized c then expandBounds c pd.bounds else pd.bounds)
        UninitializeBounds).xmin ∧
      IsMaxOf Bounds.xmax L (L.foldl (fun c pd =>
        if AreBoundsInitialized c then expandBounds c pd.bounds else pd.bounds)
        UninitializeBounds).xmax ∧
      IsMinOf Bounds.ymin L (L.foldl (fun c pd =>
        if AreBoundsInitialized c then expandBounds c pd.bounds else pd.bounds)
        UninitializeBounds).ymin ∧
      IsMaxOf Bounds.ymax L (L.foldl (fun c pd =>
        if AreBoundsInitialized c then expandBounds c pd.bounds else pd.bounds)
        UninitializeBounds).ymax ∧
      IsMinOf Bounds.zmin L (L.foldl (fun c pd =>
        if AreBoundsInitialized c then expandBounds c pd.bounds else pd.bounds)
        UninitializeBounds).zmin ∧
      IsMaxOf Bounds.zmax L (L.foldl (fun c pd =>
        if AreBoundsInitialized c then expandBounds c pd.bounds else pd.bounds)
        UninitializeBounds).zmax := by
  cases L with
  | nil => exact absurd rfl hL
  | cons pd rest =>
    have hpd : pd.bounds.Valid := hv pd (List.mem_cons_self _ _)
    rw [foldl_seed_then_expand pd rest hpd.1, foldl_expandBounds_eq]
    exact ⟨isMinOf_foldl Bounds.xmin pd rest, isMaxOf_foldl Bounds.xmax pd rest,
      isMinOf_foldl Bounds.ymin pd rest, isMaxOf_foldl Bounds.ymax pd rest,
      isMinOf_foldl Bounds.zmin pd rest, isMaxOf_foldl Bounds.zmax pd rest⟩

/-- C16. Both traversals accept exactly the polydata items of a hierarchical source.
Deleting every non-polydata item changes neither the bounds computed by `ComputeBounds` nor
the pool built by `BuildPolyDataMapper`.  The inputs of the delegates are the polydata
items in traversal order, and the bounds are determined by these inputs alone: they are the
seed-or-expand fold of lines 198-216 over the inputs of the delegates, starting from the
uninitialized box.  So with an empty pool the box stays uninitialized; the box contains the
box of every delegate input that has valid bounds; and when all delegate inputs have valid
bounds each of the six scalars is the extremum over the delegate inputs, attained at one of
them.  `ComputeBounds` emits no diagnostic. -/
theorem C16_same_acceptance_rule (s : State) (items : List vtkDataObject)
    (h : s.world.CompositeDataSet = some items) :
    (ComputeBounds { s with world := { s.world with
        CompositeDataSet := some (items.filter (fun o => (SafeDownCast o).isSome)) } }).Bounds =
        (ComputeBounds s).Bounds ∧
      (BuildPolyDataMapper { s with world := { s.world with
        CompositeDataSet := some (items.filter (fun o => (SafeDownCast o).isSome)) } }).Mappers =
        (BuildPolyDataMapper s).Mappers ∧
      (BuildPolyDataMapper s).Mappers.map (fun m => m.Input) = items.filterMap SafeDownCast ∧
      (ComputeBounds s).Bounds =
        ((BuildPolyDataMapper s).Mappers.map (fun m => m.Input)).foldl
          (fun c pd => if c.xmax < c.xmin then pd.bounds else
            ⟨min c.xmin pd.bounds.xmin, max c.xmax pd.bounds.xmax,
              min c.ymin pd.bounds.ymin, max c.ymax pd.bounds.ymax,
              min c.zmin pd.bounds.zmin, max c.zmax pd.bounds.zmax⟩)
          ⟨1, -1, 1, -1, 1, -1⟩ ∧
      ((BuildPolyDataMapper s).Mappers = [] → (ComputeBounds s).Bounds = ⟨1, -1, 1, -1, 1, -1⟩) ∧
      (∀ m ∈ (BuildPolyDataMapper s).Mappers, m.Input.bounds.Valid →
        (ComputeBounds s).Bounds.xmin ≤ m.Input.bounds.xmin ∧
        m.Input.bounds.xmax ≤ (ComputeBounds s).Bounds.xmax ∧
        (ComputeBounds s).Bounds.ymin ≤ m.Input.bounds.ymin ∧
        m.Input.bounds.ymax ≤ (ComputeBounds s).Bounds.ymax ∧
        (ComputeBounds s).Bounds.zmin ≤ m.Input.bounds.zmin ∧
        m.Input.bounds.zmax ≤ (ComputeBounds s).Bounds.zmax) ∧
      ((BuildPolyDataMapper s).Mappers ≠ [] →
        (∀ m ∈ (BuildPolyDataMapper s).Mappers, m.Input.bounds.Valid) →
        IsMinOf Bounds.xmin ((BuildPolyDataMapper s).Mappers.map (fun m => m.Input))
          (ComputeBounds s).Bounds.xmin ∧
        IsMaxOf Bounds.xmax ((BuildPolyDataMapper s).Mappers.map (fun m => m.Input))
          (ComputeBounds s).Bounds.xmax ∧
        IsMinOf Bounds.ymin ((BuildPolyDataMapper s).Mappers.map (fun m => m.Input))
          (ComputeBounds s).Bounds.ymin ∧
        IsMaxOf Bounds.ymax ((BuildPolyDataMapper s).Mappers.map (fun m => m.Input))
          (ComputeBounds s).Bounds.ymax ∧
        IsMinOf Bounds.zmin ((BuildPolyDataMapper s).Mappers.map (fun m => m.Input))
          (ComputeBounds s).Bounds.zmin ∧
        IsMaxOf Bounds.zmax ((BuildPolyDataMapper s).Mappers.map (fun m => m.Input))
          (ComputeBounds s).Bounds.zmax) ∧
      errorCount (ComputeBounds s).trace = errorCount s.trace := by
  have hM := BuildPolyDataMapper_hier_Mappers s items h
  have hI : (BuildPolyDataMapper s).Mappers.map (fun m => m.Input) =
      items.filterMap SafeDownCast := by
    rw [hM, List.map_map]
    have : ((fun m : vtkPolyDataMapper => m.Input) ∘
        fun p : Nat × vtkPolyData => (⟨p.1, p.2⟩ : vtkPolyDataMapper)) = Prod.snd := by
      funext p; rfl
    rw [this, List.enumFrom_map_snd]
  have hB : (ComputeBounds s).Bounds =
      ((BuildPolyDataMapper s).Mappers.map (fun m => m.Input)).foldl
        (fun c pd => if AreBoundsInitialized c then expandBounds c pd.bounds else pd.bounds)
        UninitializeBounds := by
    rw [ComputeBounds_hier_Bounds s items h, boundsLoop_eq_foldl, hI]
  have hstep : (fun (c : Bounds) (pd : vtkPolyData) =>
      if AreBoundsInitialized c then expandBounds c pd.bounds else pd.bounds) =
      (fun c pd => if c.xmax < c.xmin then pd.bounds else
        ⟨min c.xmin pd.bounds.xmin, max c.xmax pd.bounds.xmax,
          min c.ymin pd.bounds.ymin, max c.ymax pd.bounds.ymax,
          min c.zmin pd.bounds.zmin, max c.zmax pd.bounds.zmax⟩) := by
    funext c pd
    by_cases hc : c.xmax < c.xmin
    · simp [AreBoundsInitialized, hc]
    · simp [AreBoundsInitialized, hc, expandBounds_eq]
  refine ⟨?_, ?_, hI, ?_, ?_, ?_, ?_, ?_⟩
  · rw [ComputeBounds_hier_Bounds _ _ rfl, ComputeBounds_hier_Bounds s items h,
      boundsLoop_eq_foldl, boundsLoop_eq_foldl, filterMap_filter_polydata]
  · rw [BuildPolyDataMapper_hier_Mappers _ _ rfl, hM, filterMap_filter_polydata]
  · rw [hB, hstep]; rfl
  · intro hnil
    rw [hB, hnil]; rfl
  · intro m hm hv
    rw [hB]
    exact foldl_contains_item _ _ m.Input (List.mem_map_of_mem _ hm) hv.1
  · intro hne hv
    rw [hB]
    refine foldl_extrema_of_valid _ ?_ ?_
    · intro hnil
      exact hne (List.map_eq_nil_iff.mp hnil)
    · intro pd hpd
      obtain ⟨m, hm, rfl⟩ := List.mem_map.mp hpd
      exact hv m hm
  · exact ComputeBounds_countP _ rfl rfl s

theorem C16_same_acceptance_rule_witness :
    (exHier exFiveItems).world.CompositeDataSet = some exFiveItems ∧
      (BuildPolyDataMapper (exHier exFiveItems)).Mappers.map (fun m => m.Input) =
        [⟨10, exBoxA⟩, ⟨12, exBoxC⟩, ⟨14, exBoxA⟩] ∧
      (ComputeBounds (exHier exFiveItems)).Bounds = ⟨0, 6, 0, 6, 0, 6⟩ ∧
      (ComputeBounds (exHier (exFiveItems.filter
        (fun o => (SafeDownCast o).isSome)))).Bounds = ⟨0, 6, 0, 6, 0, 6⟩ ∧
      (ComputeBounds (exHier exFiveItems)).Bounds.xmax = exBoxC.xmax ∧
      errorCount (ComputeBounds (exHier exFiveItems)).trace =
        errorCount (exHier exFiveItems).trace := by
  have hT := C16_same_acceptance_rule (exHier exFiveItems) exFiveItems rfl
  have hval : (ComputeBounds (exHier exFiveItems)).Bounds = ⟨0, 6, 0, 6, 0, 6⟩ := by
    rw [hT.2.2.2.1, hT.2.2.1]
    simp only [exFiveItems, List.filterMap_cons, SafeDownCast_polyData, SafeDownCast_other,
      List.filterMap_nil, List.foldl_cons, List.foldl_nil, exBoxA, exBoxC]
    norm_num
  refine ⟨rfl, hT.2.2.1, hval, ?_, ?_, hT.2.2.2.2.2.2.2⟩
  · exact hT.1.trans hval
  · rw [hval]; rfl

/-! ## Ownership of the delegates -/

theorem buildLoop_creations (items : List vtkDataObject) (w : Bool) (s : State) :
    creations (buildLoop items w s).trace =
      creations s.trace + (items.filterMap SafeDownCast).length := by
  induction items generalizing w s with
  | nil => simp [buildLoop]
  | cons obj rest ih =>
    cases obj with
    | polyData pd =>
      simp only [buildLoop, SafeDownCast_polyData, List.filterMap_cons, List.length_cons]
      rw [ih]
      simp [pushNewMapper, creations, List.countP_append]
      omega
    | other i =>
      cases w
      · simp only [buildLoop, SafeDownCast_other, List.filterMap_cons]
        rw [if_pos (by rfl), ih]
        simp [vtkErrorMacro, creations, List.countP_append]
      · simp only [buildLoop, SafeDownCast_other, List.filterMap_cons]
        rw [if_neg (by simp), ih]

/-- The pool after `BuildPolyDataMapper`, for any kind of source: new delegates numbered
from `created` on, one per accepted polydata. -/
theorem BuildPolyDataMapper_pool (s : State) :
    ∃ L : List vtkPolyData,
      (BuildPolyDataMapper s).Mappers =
          (List.enumFrom s.created L).map (fun p => (⟨p.1, p.2⟩ : vtkPolyDataMapper)) ∧
        (BuildPolyDataMapper s).created = s.created + L.length ∧
        creations (BuildPolyDataMapper s).trace = creations s.trace + L.length := by
  cases hc : s.world.CompositeDataSet with
  | none =>
    cases hi : s.world.InputData.bind SafeDownCast with
    | none =>
      refine ⟨[], ?_, ?_, ?_⟩ <;>
        simp [BuildPolyDataMapper, deleteMappers, hc, hi, creations, List.countP_append,
          countP_deletes_eq_zero]
    | some pd =>
      refine ⟨[pd], ?_, ?_, ?_⟩ <;>
        simp [BuildPolyDataMapper, deleteMappers, hc, hi, creations, List.countP_append,
          countP_deletes_eq_zero, pushNewMapper]
  | some items =>
    refine ⟨items.filterMap SafeDownCast, BuildPolyDataMapper_hier_Mappers s items hc, ?_, ?_⟩
    · simp [BuildPolyDataMapper, deleteMappers, hc, buildLoop_created]
    · simp only [BuildPolyDataMapper, deleteMappers, hc]
      rw [buildLoop_creations]
      simp [creations, List.countP_append, countP_deletes_eq_zero]

/-- The `Delete()` calls of `BuildPolyDataMapper` are those of the old pool. -/
theorem BuildPolyDataMapper_countP_Delete (p : Event → Bool)
    (hEnter : ∀ f, p (Event.enter f) = false) (hNew : ∀ m, p (Event.New m) = false)
    (hSet : ∀ m pd, p (Event.SetInput m pd) = false) (hIter : p Event.NewIterator = false)
    (hErr : ∀ msg, p (Event.Error msg) = false) (s : State) :
    (BuildPolyDataMapper s).trace.countP p =
      (s.trace ++ s.Mappers.map (fun m => Event.Delete m.id)).countP p := by
  cases hc : s.world.CompositeDataSet with
  | none =>
    cases hi : s.world.InputData.bind SafeDownCast with
    | none =>
      simp [BuildPolyDataMapper, deleteMappers, hc, hi, List.countP_append, hEnter]
    | some pd =>
      simp [BuildPolyDataMapper, deleteMappers, hc, hi, List.countP_append, hEnter,
        pushNewMapper, hNew, hSet]
  | some items =>
    simp only [BuildPolyDataMapper, deleteMappers, hc]
    rw [buildLoop_countP p hNew hSet hErr]
    simp [List.countP_append, hEnter, hIter]

theorem releaseCount_deletes (i : Nat) (ms : List vtkPolyDataMapper) :
    releaseCount i (ms.map (fun m => Event.Delete m.id)) = (ms.map (fun m => m.id)).count i := by
  induction ms with
  | nil => rfl
  | cons m rest ih =>
    simp only [releaseCount] at ih
    simp only [releaseCount, List.map_cons, List.countP_cons, ih, List.count_cons]
    by_cases hi : m.id = i <;> simp [hi]

theorem releases_deletes (ms : List vtkPolyDataMapper) :
    releases (ms.map (fun m => Event.Delete m.id)) = ms.length := by
  induction ms with
  | nil => rfl
  | cons m rest ih =>
    simp only [releases] at ih
    simp [releases, List.countP_cons, ih]

/-- Releasing the whole pool of a state that satisfies the invariant leaves every delegate
created so far released exactly once. -/
theorem releaseCount_after_deletes (s : State) (h : PoolInv s) (i : Nat) :
    releaseCount i (s.trace ++ s.Mappers.map (fun m => Event.Delete m.id)) =
      if i < s.created then 1 else 0 := by
  obtain ⟨hnd, hb1, hb2, hb3, _, _⟩ := h
  have happ : releaseCount i (s.trace ++ s.Mappers.map (fun m => Event.Delete m.id)) =
      releaseCount i s.trace + (s.Mappers.map (fun m => m.id)).count i := by
    rw [← releaseCount_deletes]
    simp [releaseCount, List.countP_append]
  rw [happ]
  by_cases hmem : i ∈ s.Mappers.map (fun m => m.id)
  · rw [List.count_eq_one_of_mem hnd hmem]
    obtain ⟨m, hm, rfl⟩ := List.mem_map.mp hmem
    obtain ⟨hlt, h0⟩ := hb1 m hm
    rw [h0, if_pos hlt]
  · rw [List.count_eq_zero_of_not_mem hmem]
    by_cases hlt : i < s.created
    · rw [hb2 i hlt hmem, if_pos hlt]
    · rw [hb3 i (not_lt.mp hlt), if_neg hlt]

theorem PoolInv_BuildPolyDataMapper (s : State) (h : PoolInv s) :
    PoolInv (BuildPolyDataMapper s) := by
  obtain ⟨L, hM, hC, hN⟩ := BuildPolyDataMapper_pool s
  have hids : (BuildPolyDataMapper s).Mappers.map (fun m => m.id) =
      List.range' s.created L.length := by
    rw [hM, List.map_map]
    have : ((fun m : vtkPolyDataMapper => m.id) ∘
        fun p : Nat × vtkPolyData => (⟨p.1, p.2⟩ : vtkPolyDataMapper)) = Prod.fst := by
      funext p; rfl
    rw [this, List.enumFrom_map_fst]
  have hlen : (BuildPolyDataMapper s).Mappers.length = L.length := by
    rw [hM]; simp
  have hrc : ∀ i, releaseCount i (BuildPolyDataMapper s).trace =
      if i < s.created then 1 else 0 := by
    intro i
    rw [← releaseCount_after_deletes s h i]
    exact BuildPolyDataMapper_countP_Delete _ (by simp) (by simp) (by simp) (by simp)
      (by simp) s
  have hrel : releases (BuildPolyDataMapper s).trace = releases s.trace + s.Mappers.length := by
    rw [← releases_deletes s.Mappers]
    simp only [releases]
    rw [BuildPolyDataMapper_countP_Delete _ (by simp) (by simp) (by simp) (by simp) (by simp) s,
      List.countP_append]
  obtain ⟨_, _, _, _, hc, hn⟩ := h
  refine ⟨?_, ?_, ?_, ?_, ?_, ?_⟩
  · rw [hids]; exact List.nodup_range' _ _
  · intro m hm
    have hmem : m.id ∈ List.range' s.created L.length := by
      rw [← hids]; exact List.mem_map_of_mem _ hm
    rw [List.mem_range'_1] at hmem
    rw [hC, hrc, if_neg (by omega)]
    exact ⟨hmem.2, rfl⟩
  · intro i hlt hnot
    rw [hids, List.mem_range'_1] at hnot
    rw [hC] at hlt
    rw [hrc, if_pos (by omega)]
  · intro i hle
    rw [hC] at hle
    rw [hrc, if_neg (by omega)]
  · rw [hC, hrel, hlen]; omega
  · rw [hN, hC, hn]

/-- A step that keeps the pool and the allocation count and records no `Delete()` and no
`New()` keeps the invariant. -/
theorem PoolInv_of_same_pool (s t : State) (hM : t.Mappers = s.Mappers)
    (hC : t.created = s.created)
    (hcount : ∀ p : Event → Bool, (∀ f, p (Event.enter f) = false) →
      p Event.NewIterator = false → p Event.Update = false →
      (∀ m q, p (Event.SetClippingPlanes m q) = false) →
      (∀ m r a, p (Event.Render m r a) = false) → t.trace.countP p = s.trace.countP p)
    (h : PoolInv s) : PoolInv t := by
  have hrc : ∀ i, releaseCount i t.trace = releaseCount i s.trace := fun i =>
    hcount _ (by simp) (by simp) (by simp) (by simp) (by simp)
  have hrel : releases t.trace = releases s.trace :=
    hcount _ (by simp) (by simp) (by simp) (by simp) (by simp)
  have hnew : creations t.trace = creations s.trace :=
    hcount _ (by simp) (by simp) (by simp) (by simp) (by simp)
  obtain ⟨h1, h2, h3, h4, h5, h6⟩ := h
  refine ⟨?_, ?_, ?_, ?_, ?_, ?_⟩
  · rw [hM]; exact h1
  · intro m hm
    rw [hM] at hm
    rw [hC, hrc]; exact h2 m hm
  · intro i hlt hnot
    rw [hC] at hlt
    rw [hM] at hnot
    rw [hrc]; exact h3 i hlt hnot
  · intro i hle
    rw [hC] at hle
    rw [hrc]; exact h4 i hle
  · rw [hC, hrel, hM]; exact h5
  · rw [hnew, hC]; exact h6

theorem PoolInv_Render (ren a : Nat) (s : State) (h : PoolInv s) : PoolInv (Render ren a s) := by
  have key : ∀ s1 : State, PoolInv s1 →
      PoolInv { s1 with trace := s1.trace ++ renderLoop s1.ClippingPlanes ren a s1.Mappers } := by
    intro s1 h1
    refine PoolInv_of_same_pool s1 _ rfl rfl ?_ h1
    intro p _ _ _ hClip hRen
    simp only [List.countP_append]
    rw [countP_renderLoop_eq_zero p hClip hRen]; rfl
  by_cases hg : s.world.PipelineMTime > s.InternalMappersBuildTime
  · simp only [Render, hg, if_true]
    exact key _ (PoolInv_BuildPolyDataMapper s h)
  · simp only [Render, hg, if_false]
    exact key _ h

theorem PoolInv_GetBounds (update : World → World) (s : State) (h : PoolInv s) :
    PoolInv (GetBounds update s).2 := by
  obtain ⟨h1, _, h3, _⟩ := GetBounds_frame update s
  refine PoolInv_of_same_pool s _ h1 h3 ?_ h
  intro p hEnter hIter hUpd _ _
  exact GetBounds_countP p (hEnter _) hIter hUpd update s

theorem PoolInv_step (op : Op) (s : State) (h : PoolInv s) : PoolInv (step op s) := by
  cases op with
  | Render ren a => exact PoolInv_Render ren a s h
  | GetBounds update => exact PoolInv_GetBounds update s h
  | Pipeline change => exact h

theorem PoolInv_run (ops : List Op) (s : State) (h : PoolInv s) : PoolInv (run ops s) := by
  induction ops generalizing s with
  | nil => exact h
  | cons op rest ih => exact ih _ (PoolInv_step op s h)

theorem PoolInv_Constructor (bounds : Bounds) (planes : Nat) (w : World) :
    PoolInv (Constructor bounds planes w) := by
  refine ⟨?_, ?_, ?_, ?_, ?_, ?_⟩ <;> simp [Constructor, releaseCount, releases, creations]

/-- C11. Start from a mapper that satisfies the ownership invariant (the constructed mapper
does) and run any finite sequence of `Render` calls, `GetBounds` calls and pipeline changes.
At every point of the run (after every prefix of the sequence) each delegate in the pool has
release count 0, and the number of delegates created is the number of releases plus the
pool size and equals the number of `New()` calls.  After the destructor the pool is empty,
every delegate ever created has release count exactly 1, no delegate has a release count
above 1, and the total number of releases equals the number of delegates created. -/
theorem C11_every_delegate_released_exactly_once (s0 : State) (h0 : PoolInv s0)
    (ops : List Op) :
    (∀ n : Nat,
        (∀ m ∈ (run (ops.take n) s0).Mappers,
          releaseCount m.id (run (ops.take n) s0).trace = 0) ∧
        (run (ops.take n) s0).created =
          releases (run (ops.take n) s0).trace + (run (ops.take n) s0).Mappers.length ∧
        creations (run (ops.take n) s0).trace = (run (ops.take n) s0).created) ∧
      (Destructor (run ops s0)).Mappers = [] ∧
      (∀ i, i < (Destructor (run ops s0)).created →
        releaseCount i (Destructor (run ops s0)).trace = 1) ∧
      (∀ i, releaseCount i (Destructor (run ops s0)).trace ≤ 1) ∧
      releases (Destructor (run ops s0)).trace = (Destructor (run ops s0)).created ∧
      releases (Destructor (run ops s0)).trace = creations (Destructor (run ops s0)).trace := by
  have hinv := PoolInv_run ops s0 h0
  have hrc : ∀ i, releaseCount i (Destructor (run ops s0)).trace =
      if i < (run ops s0).created then 1 else 0 :=
    fun i => releaseCount_after_deletes (run ops s0) hinv i
  have hrel : releases (Destructor (run ops s0)).trace = (run ops s0).created := by
    obtain ⟨_, _, _, _, hc, _⟩ := hinv
    rw [hc, ← releases_deletes (run ops s0).Mappers]
    simp [Destructor, releases, List.countP_append]
  have hnew : creations (Destructor (run ops s0)).trace = (run ops s0).created := by
    obtain ⟨_, _, _, _, _, hn⟩ := hinv
    rw [← hn]
    simp [Destructor, creations, List.countP_append, countP_deletes_eq_zero]
  refine ⟨?_, rfl, ?_, ?_, hrel, ?_⟩
  · intro n
    obtain ⟨_, hb1, _, _, hc, hn⟩ := PoolInv_run (ops.take n) s0 h0
    exact ⟨fun m hm => (hb1 m hm).2, hc, hn⟩
  · intro i hlt
    have hlt2 : i < (run ops s0).created := hlt
    rw [hrc, if_pos hlt2]
  · intro i
    rw [hrc]
    split_ifs <;> omega
  · rw [hrel, hnew]

theorem C11_every_delegate_released_exactly_once_witness :
    PoolInv exNew ∧
      (run exOps exNew).Mappers = [⟨3, ⟨10, exBoxA⟩⟩, ⟨4, ⟨12, exBoxC⟩⟩, ⟨5, ⟨14, exBoxA⟩⟩] ∧
      (Destructor (run exOps exNew)).created = 6 ∧
      releases (Destructor (run exOps exNew)).trace = 6 ∧
      (∀ i, i < 6 → releaseCount i (Destructor (run exOps exNew)).trace = 1) :=
  ⟨PoolInv_Constructor _ _ _, by decide, by decide,
    ((C11_every_delegate_released_exactly_once exNew (PoolInv_Constructor _ _ _)
      exOps).2.2.2.2.1).trans (by decide),
    (C11_every_delegate_released_exactly_once exNew (PoolInv_Constructor _ _ _) exOps).2.2.1⟩

/-! ## The delegate calls of one Render -/

/-- C13. The delegate calls made by one `Render` are, for each delegate of the pool as it
is after the staleness gate (rebuilt or not), in pool order, a `SetClippingPlanes` call with
the mapper's clipping planes immediately followed by a `Render` call on the same delegate
with the renderer and actor of the call.  So a delegate gets as many render calls as it has
places in the pool (exactly one when the ownership invariant holds), every such call is on
a delegate of the pool, and no call is made when the pool is empty. -/
theorem C13_render_fans_out_in_pool_order (ren a : Nat) (s : State) :
    delegateCalls (Render ren a s).trace =
        delegateCalls s.trace ++
          (Render ren a s).Mappers.flatMap
            (fun m => [Event.SetClippingPlanes m.id s.ClippingPlanes, Event.Render m.id ren a]) ∧
      (Render ren a s).Mappers =
        (if s.world.PipelineMTime > s.InternalMappersBuildTime
          then (BuildPolyDataMapper s).Mappers else s.Mappers) ∧
      (∀ i, ((Render ren a s).Mappers.flatMap
            (fun m => [Event.SetClippingPlanes m.id s.ClippingPlanes,
              Event.Render m.id ren a])).count (Event.Render i ren a) =
          ((Render ren a s).Mappers.map (fun m => m.id)).count i) ∧
      (∀ e ∈ (Render ren a s).Mappers.flatMap
            (fun m => [Event.SetClippingPlanes m.id s.ClippingPlanes, Event.Render m.id ren a]),
          ∃ m ∈ (Render ren a s).Mappers,
            e = Event.SetClippingPlanes m.id s.ClippingPlanes ∨ e = Event.Render m.id ren a) ∧
      (PoolInv s → ∀ m ∈ (Render ren a s).Mappers,
        ((Render ren a s).Mappers.flatMap
            (fun m => [Event.SetClippingPlanes m.id s.ClippingPlanes,
              Event.Render m.id ren a])).count (Event.Render m.id ren a) = 1) ∧
      ((Render ren a s).Mappers = [] →
        delegateCalls (Render ren a s).trace = delegateCalls s.trace) := by
  have hM : (Render ren a s).Mappers =
      (if s.world.PipelineMTime > s.InternalMappersBuildTime
        then (BuildPolyDataMapper s).Mappers else s.Mappers) := by
    by_cases hg : s.world.PipelineMTime > s.InternalMappersBuildTime <;> simp [Render, hg]
  have hmain : delegateCalls (Render ren a s).trace =
      delegateCalls s.trace ++
        (Render ren a s).Mappers.flatMap
          (fun m => [Event.SetClippingPlanes m.id s.ClippingPlanes, Event.Render m.id ren a]) := by
    rw [← renderLoop_eq_flatMap, ← delegateCalls_renderLoop]
    by_cases hg : s.world.PipelineMTime > s.InternalMappersBuildTime
    · have hB := BuildPolyDataMapper_delegateCalls s
      have hP := (BuildPolyDataMapper_frame s).2.2.2.2
      simp only [delegateCalls] at hB ⊢
      simp only [Render, hg, if_true, List.filter_append, hB, hP]
    · simp only [delegateCalls, Render, hg, if_false, List.filter_append]
  have hcount : ∀ i, ((Render ren a s).Mappers.flatMap
      (fun m => [Event.SetClippingPlanes m.id s.ClippingPlanes,
        Event.Render m.id ren a])).count (Event.Render i ren a) =
      ((Render ren a s).Mappers.map (fun m => m.id)).count i := by
    intro i
    rw [← renderLoop_eq_flatMap]
    exact count_Render_renderLoop _ _ _ _ _
  refine ⟨hmain, hM, hcount, ?_, ?_, ?_⟩
  · intro e he
    rw [List.mem_flatMap] at he
    obtain ⟨m, hm, he⟩ := he
    refine ⟨m, hm, ?_⟩
    simpa using he
  · intro hinv m hm
    rw [hcount]
    exact List.count_eq_one_of_mem (PoolInv_Render ren a s hinv).1 (List.mem_map_of_mem _ hm)
  · intro hnil
    rw [hmain, hnil]
    simp

theorem C13_render_fans_out_in_pool_order_witness :
    (Render 1 2 (exFlat (some (vtkDataObject.other 3)))).Mappers = [] ∧
      delegateCalls (Render 1 2 (exFlat (some (vtkDataObject.other 3)))).trace =
        delegateCalls (exFlat (some (vtkDataObject.other 3))).trace ∧
      delegateCalls (Render 1 2 (exHier exFiveItems)).trace =
        [Event.SetClippingPlanes 1 40, Event.Render 1 1 2, Event.SetClippingPlanes 2 40,
          Event.Render 2 1 2, Event.SetClippingPlanes 3 40, Event.Render 3 1 2] :=
  ⟨by decide,
    (C13_render_fans_out_in_pool_order 1 2 (exFlat (some (vtkDataObject.other 3)))).2.2.2.2.2
      (by decide),
    ((C13_render_fans_out_in_pool_order 1 2 (exHier exFiveItems)).1).trans (by decide)⟩

end vtkHierarchicalPolyDataMapper
